import Mathlib

/-!
# Verification of the COVID-19 dataset reconcilers

This file gives a shallow embedding of the two reconciler scripts of the
repository (`scripts/step1_global.py` and `scripts/step1_mx.py`) and proves
properties of the embedded definitions.

Python data structures are modelled as follows: a `dict` is an association
list with insertion-order semantics (`pyInsert` overwrites in place and
appends fresh keys); `d[k]` is `dlookup` (raising `KeyError` becomes
`Option`); `d.get(k, v)` is `dlookup … |>.getD v`; strings are Lean
`String`s and the string operations used by the scripts (`split`,
`replace`, `strip`, `"{}_{}".format`) are implemented over `String.data`
character lists; machine integers are `Int` (Python ints are unbounded);
any code path that raises an exception is modelled by `none`.
-/

namespace Covid

/-- Python dict assignment `d[k] = v`: overwrite in place if the key is
present, otherwise append at the end (insertion order semantics). -/
def pyInsert {α : Type} (d : List (String × α)) (k : String) (v : α) : List (String × α) :=
  if d.any (fun p => p.1 == k) then
    d.map (fun p => if p.1 == k then (k, v) else p)
  else d ++ [(k, v)]

/-- Python dict subscript `d[k]`; `none` models `KeyError`. -/
def dlookup {α : Type} (k : String) : List (String × α) → Option α
  | [] => none
  | p :: ps => if p.1 == k then some p.2 else dlookup k ps

/-- In-place update of the value stored at key `k` (models the
`d[k][i] += x` mutation once the key is known to be present). -/
def updKey {α : Type} (d : List (String × α)) (k : String) (f : α → α) : List (String × α) :=
  d.map (fun p => if p.1 == k then (k, f p.2) else p)

/-- Python `str.split(sep)` for a single-character separator, over
character lists. -/
def splitChar (sep : Char) : List Char → List (List Char)
  | [] => [[]]
  | c :: cs =>
    if c == sep then [] :: splitChar sep cs
    else
      match splitChar sep cs with
      | [] => [[c]]
      | p :: ps => (c :: p) :: ps

/-- The decimal digit character for `n % 10`. -/
def digitChar (n : Nat) : Char := Char.ofNat (48 + n % 10)

/-- Two-digit zero-padded decimal rendering (strftime `%m` / `%d`). -/
def pad2 (n : Nat) : String := ⟨[digitChar (n / 10), digitChar n]⟩

/-- Four-digit zero-padded decimal rendering (strftime `%Y`). -/
def pad4 (n : Nat) : String :=
  ⟨[digitChar (n / 1000), digitChar (n / 100), digitChar (n / 10), digitChar n]⟩

/-- Whether a character is an ASCII decimal digit. -/
def isDigitCh (c : Char) : Bool := 48 ≤ c.toNat && c.toNat ≤ 57

/-- Decimal value of a digit string. -/
def digitsVal (l : List Char) : Nat := l.foldl (fun a c => a * 10 + (c.toNat - 48)) 0

/-- Parse one `strptime` field of one or two decimal digits. -/
def parsePart (l : List Char) : Option Nat :=
  if (l.length == 1 || l.length == 2) && l.all isDigitCh then some (digitsVal l) else none

/-- The conversion `"{:%Y-%m-%d}".format(datetime.strptime(field, "%m/%d/%y"))`: parse a
`month/day/2-digit-year` header label and render it as ISO-8601.  POSIX
`%y` maps 00–68 to 2000–2068 and 69–99 to 1969–1999.  `none` models the
`ValueError` raised by `strptime` on a malformed label. -/
def toIso (s : String) : Option String :=
  match splitChar '/' s.data with
  | [ms, ds, ys] =>
    match parsePart ms, parsePart ds, parsePart ys with
    | some m, some d, some y =>
      if 1 ≤ m ∧ m ≤ 12 ∧ 1 ≤ d ∧ d ≤ 31 then
        some (pad4 (if y ≤ 68 then 2000 + y else 1900 + y) ++ "-" ++ pad2 m ++ "-" ++ pad2 d)
      else none
    | _, _, _ => none
  | _ => none

/-- The key `"{}_{}".format(date, country)`: the composite skeleton key. -/
def mkKey (date country : String) : String := date ++ "_" ++ country

/-- One skeleton value: the `[confirmed, deaths, recovered]` triple. -/
structure Entry where
  confirmed : Int
  deaths : Int
  recovered : Int
deriving DecidableEq

/-- The `[0, 0, 0]` dummy value. -/
def Entry.zero : Entry := ⟨0, 0, 0⟩

/-- One row of a raw time-series source: its `Country/Region` cell plus the
(already `int`-converted) value of each column, indexed by header label. -/
structure SrcRow where
  country : String
  cell : String → Int

/-- String comparison as Python performs it: lexicographically by code
point on the underlying character sequences. -/
def strLe (a b : String) : Prop := a.data ≤ b.data

instance : DecidableRel strLe := fun a b => inferInstanceAs (Decidable (a.data ≤ b.data))

/-- Python `sorted`: we use insertion sort, which agrees with any stable
sort on the duplicate-free lists it is applied to. -/
def pySorted (l : List String) : List String := List.insertionSort strLe l

/-- A Python-style loop that maps a fallible body over a list and aborts
at the first failure. -/
def mapOpt {α β : Type} (f : α → Option β) : List α → Option (List β)
  | [] => some []
  | x :: xs =>
    match f x with
    | none => none
    | some y =>
      match mapOpt f xs with
      | none => none
      | some ys => some (y :: ys)

/-- The function `generate_list`, with the enumeration order of the Python `set` of
countries exposed as a parameter (set iteration order is the one
run-to-run varying choice in the script).  Returns the skeleton dict and
the dates dict. -/
def generate_list_enum (fields : List String) (countriesEnum : List String) :
    Option (List (String × Entry) × List (String × String)) := do
  let isos ← mapOpt toIso fields
  let dates_dict := (fields.zip isos).foldl (fun d fi => pyInsert d fi.1 fi.2) []
  let countries := pySorted countriesEnum
  let data_dict := dates_dict.foldl (fun dd p =>
      countries.foldl (fun dd c => pyInsert dd (mkKey p.2 c) Entry.zero) dd) []
  some (data_dict, dates_dict)

/-- The function `generate_list` of `step1_global.py`: fields are the header labels from
the fifth column onwards of the first source, countries are collected into
a set from the `Country/Region` column of its rows. -/
def generate_list (fields : List String) (rows : List SrcRow) :
    Option (List (String × Entry) × List (String × String)) :=
  generate_list_enum fields ((rows.map SrcRow.country).dedup)

/-- The `if kind == …` cascade that adds a value into the triple. -/
def applyKind (kind : String) (e : Entry) (v : Int) : Entry :=
  if kind == "confirmed" then { e with confirmed := e.confirmed + v }
  else if kind == "deaths" then { e with deaths := e.deaths + v }
  else if kind == "recovered" then { e with recovered := e.recovered + v }
  else e

/-- Projection of the measure a kind updates (`0` for an unknown kind). -/
def measureOf (kind : String) (e : Entry) : Int :=
  if kind == "confirmed" then e.confirmed
  else if kind == "deaths" then e.deaths
  else if kind == "recovered" then e.recovered
  else 0

/-- The inner loop of `main`: for one source row, walk `dates_dict.items()`
and do `data_dict[temp_key][i] += int(row[k])`; a missing key is a
`KeyError` (`none`). -/
def mergeRow (kind : String) (r : SrcRow) :
    List (String × String) → List (String × Entry) → Option (List (String × Entry))
  | [], dd => some dd
  | kv :: ps, dd =>
    match dlookup (mkKey kv.2 r.country) dd with
    | none => none
    | some _ =>
      mergeRow kind r ps (updKey dd (mkKey kv.2 r.country) (fun e => applyKind kind e (r.cell kv.1)))

/-- The row loop of `main` for one source. -/
def mergeRows (kind : String) (pairs : List (String × String)) :
    List SrcRow → List (String × Entry) → Option (List (String × Entry))
  | [], dd => some dd
  | r :: rs, dd =>
    match mergeRow kind r pairs dd with
    | none => none
    | some dd2 => mergeRows kind pairs rs dd2

/-- The unpacking `isodate, country = k.split("_")`: succeeds exactly when the split has
two parts; `none` models the `ValueError` of a mismatched unpacking. -/
def splitKey (k : String) : Option (String × String) :=
  match splitChar '_' k.data with
  | [i, c] => some (⟨i⟩, ⟨c⟩)
  | _ => none

/-- One row of `global_data.csv`. -/
structure OutRow where
  isodate : String
  country : String
  confirmed : Int
  deaths : Int
  recovered : Int
deriving DecidableEq

/-- The output loop of `main`: unpack every key and emit one CSV row per
skeleton entry. -/
def writeOutput (dd : List (String × Entry)) : Option (List OutRow) :=
  mapOpt (fun p => (splitKey p.1).map
    (fun ic => ⟨ic.1, ic.2, p.2.confirmed, p.2.deaths, p.2.recovered⟩)) dd

/-- The function `main` of `step1_global.py` with the set enumeration order exposed:
build the skeleton, merge the three sources in `CSV_FILES` order, write
the output rows. -/
def mainGlobalEnum (fields : List String) (countriesEnum : List String)
    (conf dths recov : List SrcRow) : Option (List OutRow) :=
  match generate_list_enum fields countriesEnum with
  | none => none
  | some (dd0, dates_dict) =>
    match mergeRows "confirmed" dates_dict conf dd0 with
    | none => none
    | some dd1 =>
      match mergeRows "deaths" dates_dict dths dd1 with
      | none => none
      | some dd2 =>
        match mergeRows "recovered" dates_dict recov dd2 with
        | none => none
        | some dd3 => writeOutput dd3

/-- The function `main` of `step1_global.py`. -/
def mainGlobal (fields : List String) (conf dths recov : List SrcRow) : Option (List OutRow) :=
  mainGlobalEnum fields ((conf.map SrcRow.country).dedup) conf dths recov

/-- Normal form of the skeleton: one block of zero entries per date, one
entry per country inside a block. -/
def skelOf (dates countries : List String) : List (String × Entry) :=
  dates.flatMap (fun d => countries.map (fun c => (mkKey d c, Entry.zero)))

/-- First-occurrence deduplication, as the overwrite semantics of a Python
dict produces it. -/
def seenFold (l : List String) : List String :=
  l.foldl (fun acc d => if d ∈ acc then acc else acc ++ [d]) []

/-- The fold `seenFold` with an explicit accumulator. -/
def seenAcc (acc : List String) (l : List String) : List String :=
  l.foldl (fun a d => if d ∈ a then a else a ++ [d]) acc

/-- The total amount one source row adds to the entry stored at key `q`. -/
def rowContrib (pairs : List (String × String)) (r : SrcRow) (q : String) : Int :=
  ((pairs.filter (fun p => mkKey p.2 r.country == q)).map (fun p => r.cell p.1)).sum

/-- The total amount a whole source adds to the entry stored at key `q`. -/
def totalContrib (rows : List SrcRow) (pairs : List (String × String)) (q : String) : Int :=
  (rows.map (fun r => rowContrib pairs r q)).sum

instance : IsTotal String strLe := ⟨fun a b => le_total a.data b.data⟩

instance : IsTrans String strLe := ⟨fun _ _ _ h1 h2 => le_trans h1 h2⟩

instance : IsAntisymm String strLe := ⟨fun _ _ h1 h2 => String.ext (le_antisymm h1 h2)⟩

/-- The sum of one measure over all regions of the merged table, for one
date. -/
def dateSum (dd : List (String × Entry)) (countries : List String) (v kind : String) : Int :=
  (countries.map (fun c => measureOf kind ((dlookup (mkKey v c) dd).getD Entry.zero))).sum


/-! ## The Mexican pipeline (`step1_mx.py`) -/

/-- A workbook cell value: `none` is Python `None`, otherwise the cell
rendered text. -/
abbrev PyVal := Option String

/-- Python `str(v)` on a cell value (`str(None)` is the string `"None"`). -/
def pyStr (v : PyVal) : String := v.getD "None"

/-- Python truthiness of a cell value (`None` and `""` are falsy). -/
def truthy : PyVal → Bool
  | none => false
  | some s => s != ""

/-- Python `str.strip()` over a character list: drop whitespace from both
ends. -/
def trimL (l : List Char) : List Char :=
  ((l.dropWhile Char.isWhitespace).reverse.dropWhile Char.isWhitespace).reverse

/-- Python `str.strip()`. -/
def pyStrip (s : String) : String := ⟨trimL s.data⟩

/-- Python `str.replace(pat, rep)` (leftmost, non-overlapping), written
with explicit fuel so that the kernel can evaluate it; `fuel ≥ l.length`
gives the real behaviour. -/
def replaceFuel (pat rep : List Char) : Nat → List Char → List Char
  | _, [] => []
  | 0, l => l
  | fuel + 1, c :: cs =>
    if !pat.isEmpty && pat.isPrefixOf (c :: cs) then
      rep ++ replaceFuel pat rep fuel ((c :: cs).drop pat.length)
    else c :: replaceFuel pat rep fuel cs

/-- Python `str.replace(pat, rep)`. -/
def pyReplace (s pat rep : String) : String := ⟨replaceFuel pat.data rep.data s.data.length s.data⟩

/-- The `FIXERS` substitution table of `step1_mx.py` (keys are the
Latin-1-mojibake sequences, in source order; `"Ã"` alone comes last). -/
def FIXERS : List (String × String) :=
  [("Ã±", "ñ"), ("Ã¡", "á"), ("Ã©", "é"),
   ("Ã³", "ó"), ("Ãº", "ú"), ("Ã", "í")]

/-- The loop `for k, v in FIXERS.items(): x = x.replace(k, v).strip()`. -/
def applyFixers (s : String) : String :=
  FIXERS.foldl (fun acc kv => pyStrip (pyReplace acc kv.1 kv.2)) s

/-- Whether `pat` occurs as a contiguous subsequence of `l`. -/
def hasPat (pat : List Char) : List Char → Bool
  | [] => pat.isEmpty
  | c :: cs => pat.isPrefixOf (c :: cs) || hasPat pat cs

/-- The plain catalog-sheet loader: for every row do
`DICT[str(row[0].value)] = str(row[1].value).strip()` — no row is ever
skipped. -/
def loadSimple (rows : List (PyVal × PyVal)) : List (String × String) :=
  rows.foldl (fun d p => pyInsert d (pyStr p.1) (pyStrip (pyStr p.2))) []

/-- The `RESULTADO_LAB` sheet loader: rows of length zero are skipped, a
row of length one crashes with `IndexError` (`none`). -/
def loadLab : List (List PyVal) → List (String × String) → Option (List (String × String))
  | [], d => some d
  | r :: rs, d =>
    if r.length > 0 then
      match r.get? 0, r.get? 1 with
      | some c0, some c1 => loadLab rs (pyInsert d (pyStr c0) (pyStrip (pyStr c1)))
      | _, _ => none
    else loadLab rs d

/-- The `CLASIFICACION_FINAL` sheet loader: rows with a falsy code cell
are skipped; on kept rows the label goes through the `FIXERS` loop
(without `str()`, so a `None` label is an `AttributeError`, i.e. `none`). -/
def loadClasificacion : List (PyVal × PyVal) → List (String × String) → Option (List (String × String))
  | [], d => some d
  | (c0, c1) :: rs, d =>
    if truthy c0 then
      match c1 with
      | some s => loadClasificacion rs (pyInsert d (pyStr c0) (applyFixers s))
      | none => none
    else loadClasificacion rs d

/-- The `MUNICIPIOS` sheet loader: the key combines columns 0 and 2 as
`"{}-{}".format(row[0].value, row[2].value)`; the label is column 1. -/
def loadMunicipios (rows : List (PyVal × PyVal × PyVal)) : List (String × String) :=
  rows.foldl (fun d p => pyInsert d (pyStr p.1 ++ "-" ++ pyStr p.2.2) (pyStrip (pyStr p.2.1))) []

/-- The ten catalog dictionaries of `step1_mx.py`. -/
structure Catalogs where
  ORIGEN : List (String × String)
  SECTOR : List (String × String)
  SEXO : List (String × String)
  TIPO_PACIENTE : List (String × String)
  SI_NO : List (String × String)
  NACIONALIDAD : List (String × String)
  RESULTADO_LAB : List (String × String)
  ENTIDADES : List (String × String)
  MUNICIPIOS : List (String × String)
  CLASIFICACION_FINAL : List (String × String)

/-- One line-list row, with the fields `convert` touches. -/
structure CaseRecord where
  ORIGEN : String
  SECTOR : String
  SEXO : String
  TIPO_PACIENTE : String
  NACIONALIDAD : String
  RESULTADO_LAB : String
  RESULTADO_ANTIGENO : String
  CLASIFICACION_FINAL : String
  ENTIDAD_UM : String
  ENTIDAD_NAC : String
  ENTIDAD_RES : String
  MUNICIPIO_RES : String
  MIGRANTE : String
  INTUBADO : String
  NEUMONIA : String
  EMBARAZO : String
  HABLA_LENGUA_INDIG : String
  INDIGENA : String
  TOMA_MUESTRA_LAB : String
  TOMA_MUESTRA_ANTIGENO : String
  DIABETES : String
  EPOC : String
  ASMA : String
  INMUSUPR : String
  HIPERTENSION : String
  OTRA_COM : String
  CARDIOVASCULAR : String
  OBESIDAD : String
  RENAL_CRONICA : String
  TABAQUISMO : String
  OTRO_CASO : String
  UCI : String
  PAIS_ORIGEN : String
  PAIS_NACIONALIDAD : String
deriving DecidableEq

/-- Lines 172–181 of `step1_mx.py`: the municipality lookup is done first,
over the raw `MUNICIPIO_RES`/`ENTIDAD_RES` codes (with the
`"NO ETIQUETADO"` default), and only then are the three state fields
replaced through `ENTIDADES_DICT` (a missing code is a `KeyError`). -/
def convertStates (cat : Catalogs) (r : CaseRecord) : Option CaseRecord := do
  let swm := r.MUNICIPIO_RES ++ "-" ++ r.ENTIDAD_RES
  let mun := (dlookup swm cat.MUNICIPIOS).getD "NO ETIQUETADO"
  let eum ← dlookup r.ENTIDAD_UM cat.ENTIDADES
  let enac ← dlookup r.ENTIDAD_NAC cat.ENTIDADES
  let eres ← dlookup r.ENTIDAD_RES cat.ENTIDADES
  some { r with MUNICIPIO_RES := mun, ENTIDAD_UM := eum, ENTIDAD_NAC := enac,
                ENTIDAD_RES := eres }

/-- Lines 182–189: the eight categorical lookups, each a `KeyError` when
the code is absent (`RESULTADO_ANTIGENO` shares `RESULTADO_LAB_DICT`). -/
def convertCategorical (cat : Catalogs) (r : CaseRecord) : Option CaseRecord := do
  let origen ← dlookup r.ORIGEN cat.ORIGEN
  let sector ← dlookup r.SECTOR cat.SECTOR
  let sexo ← dlookup r.SEXO cat.SEXO
  let tipo ← dlookup r.TIPO_PACIENTE cat.TIPO_PACIENTE
  let nacion ← dlookup r.NACIONALIDAD cat.NACIONALIDAD
  let rlab ← dlookup r.RESULTADO_LAB cat.RESULTADO_LAB
  let rant ← dlookup r.RESULTADO_ANTIGENO cat.RESULTADO_LAB
  let clasif ← dlookup r.CLASIFICACION_FINAL cat.CLASIFICACION_FINAL
  some { r with ORIGEN := origen, SECTOR := sector, SEXO := sexo, TIPO_PACIENTE := tipo,
                NACIONALIDAD := nacion, RESULTADO_LAB := rlab, RESULTADO_ANTIGENO := rant,
                CLASIFICACION_FINAL := clasif }

/-- Lines 192–201: the first ten yes/no lookups through `SI_NO_DICT`. -/
def convertYesNoA (cat : Catalogs) (r : CaseRecord) : Option CaseRecord := do
  let migrante ← dlookup r.MIGRANTE cat.SI_NO
  let intubado ← dlookup r.INTUBADO cat.SI_NO
  let neumonia ← dlookup r.NEUMONIA cat.SI_NO
  let embarazo ← dlookup r.EMBARAZO cat.SI_NO
  let habla ← dlookup r.HABLA_LENGUA_INDIG cat.SI_NO
  let indigena ← dlookup r.INDIGENA cat.SI_NO
  let tmlab ← dlookup r.TOMA_MUESTRA_LAB cat.SI_NO
  let tmant ← dlookup r.TOMA_MUESTRA_ANTIGENO cat.SI_NO
  let diabetes ← dlookup r.DIABETES cat.SI_NO
  let epoc ← dlookup r.EPOC cat.SI_NO
  some { r with MIGRANTE := migrante, INTUBADO := intubado, NEUMONIA := neumonia,
                EMBARAZO := embarazo, HABLA_LENGUA_INDIG := habla, INDIGENA := indigena,
                TOMA_MUESTRA_LAB := tmlab, TOMA_MUESTRA_ANTIGENO := tmant,
                DIABETES := diabetes, EPOC := epoc }

/-- Lines 202–211: the remaining ten yes/no lookups through `SI_NO_DICT`. -/
def convertYesNoB (cat : Catalogs) (r : CaseRecord) : Option CaseRecord := do
  let asma ← dlookup r.ASMA cat.SI_NO
  let inmusupr ← dlookup r.INMUSUPR cat.SI_NO
  let hiperten ← dlookup r.HIPERTENSION cat.SI_NO
  let otracom ← dlookup r.OTRA_COM cat.SI_NO
  let cardio ← dlookup r.CARDIOVASCULAR cat.SI_NO
  let obesidad ← dlookup r.OBESIDAD cat.SI_NO
  let renal ← dlookup r.RENAL_CRONICA cat.SI_NO
  let tabaquismo ← dlookup r.TABAQUISMO cat.SI_NO
  let otrocaso ← dlookup r.OTRO_CASO cat.SI_NO
  let uci ← dlookup r.UCI cat.SI_NO
  some { r with ASMA := asma, INMUSUPR := inmusupr, HIPERTENSION := hiperten,
                OTRA_COM := otracom, CARDIOVASCULAR := cardio, OBESIDAD := obesidad,
                RENAL_CRONICA := renal, TABAQUISMO := tabaquismo, OTRO_CASO := otrocaso,
                UCI := uci }

/-- Lines 213–220: the `PAIS_ORIGEN` `"99"` sentinel and the `FIXERS` loop
on `PAIS_NACIONALIDAD` (neither consults a catalog, neither can fail). -/
def convertPais (r : CaseRecord) : CaseRecord :=
  { r with
    PAIS_ORIGEN := if r.PAIS_ORIGEN == "99" then "NO ESPECIFICADO" else r.PAIS_ORIGEN,
    PAIS_NACIONALIDAD := applyFixers r.PAIS_NACIONALIDAD }

/-- The per-row body of `convert` (lines 170–222), staged in source order;
each stage reads only fields the earlier stages left untouched, so the
composition computes exactly what the Python loop body computes. -/
def convertRow (cat : Catalogs) (r : CaseRecord) : Option CaseRecord := do
  let a ← convertStates cat r
  let b ← convertCategorical cat a
  let c ← convertYesNoA cat b
  let d ← convertYesNoB cat c
  some (convertPais d)

/-- The row loop of `convert`: the first failing row aborts the run before
any output is written. -/
def convert (cat : Catalogs) (rows : List CaseRecord) : Option (List CaseRecord) :=
  mapOpt (convertRow cat) rows

/-- Test fixture: a small but complete catalog set (municipality keyed as
the loader builds it, municipality code first). -/
def sampleCatalogs : Catalogs :=
  Catalogs.mk
    [("1", "USMER")]
    [("4", "IMSS")]
    [("1", "MUJER")]
    [("1", "AMBULATORIO")]
    [("1", "SI"), ("2", "NO"), ("97", "NO APLICA"), ("98", "SE IGNORA"),
      ("99", "NO ESPECIFICADO")]
    [("1", "MEXICANA")]
    [("1", "POSITIVO"), ("4", "NO REALIZADO")]
    [("09", "CIUDAD DE MÉXICO")]
    [("002-09", "AZCAPOTZALCO")]
    [("3", "CASO CONFIRMADO")]

/-- Test fixture: a raw line-list row whose every code resolves in
`sampleCatalogs`. -/
def sampleRecord : CaseRecord :=
  CaseRecord.mk "1" "4" "1" "1" "1" "1" "4" "3" "09" "09" "09" "002"
    "2" "2" "2" "2" "2" "2" "2" "2" "2" "2" "2" "2" "2" "2" "2" "2" "2" "2" "2" "2"
    "99" "MÃ©xico"

/-- The record `convert` produces from `sampleRecord` under
`sampleCatalogs`. -/
def sampleOut : CaseRecord :=
  CaseRecord.mk "USMER" "IMSS" "MUJER" "AMBULATORIO" "MEXICANA" "POSITIVO" "NO REALIZADO"
    "CASO CONFIRMADO" "CIUDAD DE MÉXICO" "CIUDAD DE MÉXICO" "CIUDAD DE MÉXICO" "AZCAPOTZALCO"
    "NO" "NO" "NO" "NO" "NO" "NO" "NO" "NO" "NO" "NO" "NO" "NO" "NO" "NO" "NO" "NO" "NO"
    "NO" "NO" "NO" "NO ESPECIFICADO" "México"

/-- The record `sampleRecord` with a municipality code that is absent from the
municipality catalog. -/
def sampleRecordNoMun : CaseRecord := { sampleRecord with MUNICIPIO_RES := "003" }

/-- The catalogs `sampleCatalogs` with the municipality catalog keyed the way claim C5
describes it: state code first. -/
def sampleCatalogsStateFirst : Catalogs :=
  { sampleCatalogs with MUNICIPIOS := [("09-002", "AZCAPOTZALCO")] }

/-! ## Basic facts about the string model -/

theorem mkString_eta (s : String) : (⟨s.data⟩ : String) = s := by
  cases s
  rfl

theorem digitChar_ne_us (n : Nat) : digitChar n ≠ '_' := by
  have h : n % 10 = 0 ∨ n % 10 = 1 ∨ n % 10 = 2 ∨ n % 10 = 3 ∨ n % 10 = 4 ∨
      n % 10 = 5 ∨ n % 10 = 6 ∨ n % 10 = 7 ∨ n % 10 = 8 ∨ n % 10 = 9 := by omega
  unfold digitChar
  rcases h with h | h | h | h | h | h | h | h | h | h <;> rw [h] <;> decide

theorem mkKey_data (d c : String) : (mkKey d c).data = d.data ++ '_' :: c.data := by
  simp [mkKey, String.data_append]

theorem mkKey_inj {d₁ d₂ c₁ c₂ : String} (hlen : d₁.length = d₂.length)
    (h : mkKey d₁ c₁ = mkKey d₂ c₂) : d₁ = d₂ ∧ c₁ = c₂ := by
  have h2 : d₁.data ++ '_' :: c₁.data = d₂.data ++ '_' :: c₂.data := by
    rw [← mkKey_data, ← mkKey_data, h]
  obtain ⟨h3, h4⟩ := List.append_inj h2 hlen
  refine ⟨String.ext h3, String.ext ?_⟩
  injection h4

theorem mkKey_inj_country {d c₁ c₂ : String} (h : mkKey d c₁ = mkKey d c₂) : c₁ = c₂ :=
  (mkKey_inj rfl h).2

theorem pad4_chars {ch : Char} {a : Nat} (h : ch ∈ (pad4 a).data) : ∃ k, ch = digitChar k := by
  have h2 : ch ∈ [digitChar (a / 1000), digitChar (a / 100), digitChar (a / 10), digitChar a] := h
  simp only [List.mem_cons, List.not_mem_nil, or_false] at h2
  rcases h2 with h2 | h2 | h2 | h2 <;> exact ⟨_, h2⟩

theorem pad2_chars {ch : Char} {a : Nat} (h : ch ∈ (pad2 a).data) : ∃ k, ch = digitChar k := by
  have h2 : ch ∈ [digitChar (a / 10), digitChar a] := h
  simp only [List.mem_cons, List.not_mem_nil, or_false] at h2
  rcases h2 with h2 | h2 <;> exact ⟨_, h2⟩

theorem iso_no_us (a b c : Nat) :
    '_' ∉ (pad4 a ++ "-" ++ pad2 b ++ "-" ++ pad2 c).data := by
  intro hmem
  rw [String.data_append, String.data_append, String.data_append, String.data_append] at hmem
  simp only [List.mem_append] at hmem
  rcases hmem with (((h | h) | h) | h) | h
  · rcases pad4_chars h with ⟨k, hk⟩
    exact digitChar_ne_us k hk.symm
  · exact absurd h (by decide)
  · rcases pad2_chars h with ⟨k, hk⟩
    exact digitChar_ne_us k hk.symm
  · exact absurd h (by decide)
  · rcases pad2_chars h with ⟨k, hk⟩
    exact digitChar_ne_us k hk.symm

/-- Shape of an ISO-rendered date: ten characters, none of them an
underscore. -/
theorem toIso_shape {s t : String} (h : toIso s = some t) :
    t.length = 10 ∧ '_' ∉ t.data := by
  unfold toIso at h
  split at h
  case h_2 => exact absurd h (by simp)
  case h_1 ms ds ys heq =>
    split at h
    case h_2 => exact absurd h (by simp)
    case h_1 m d y hm hd hy =>
      split at h
      case isFalse => exact absurd h (by simp)
      case isTrue =>
        have ht : t =
            pad4 (if y ≤ 68 then 2000 + y else 1900 + y) ++ "-" ++ pad2 m ++ "-" ++ pad2 d := by
          injection h with h
          exact h.symm
        subst ht
        exact ⟨rfl, iso_no_us _ _ _⟩

theorem splitChar_ne_nil (sep : Char) : ∀ l : List Char, splitChar sep l ≠ []
  | [] => by simp [splitChar]
  | c :: cs => by
    unfold splitChar
    split
    · simp
    · split <;> simp

theorem splitChar_no_sep {sep : Char} : ∀ {l : List Char}, sep ∉ l → splitChar sep l = [l]
  | [], _ => rfl
  | c :: cs, h => by
    have hc : ¬ (c == sep) := by
      simp only [List.mem_cons, not_or] at h
      simp [beq_iff_eq]
      exact fun hcc => h.1 hcc.symm
    have ih : splitChar sep cs = [cs] :=
      splitChar_no_sep (fun hmem => h (List.mem_cons_of_mem _ hmem))
    simp [splitChar, hc, ih]

theorem splitChar_cons_ne {sep c : Char} (h : ¬ c = sep) (l : List Char) :
    splitChar sep (c :: l) =
      match splitChar sep l with
      | [] => [[c]]
      | p :: ps => (c :: p) :: ps := by
  conv_lhs => unfold splitChar
  rw [if_neg (by simpa using h)]

theorem splitChar_append {sep : Char} {a : List Char} (ha : sep ∉ a) (b : List Char) :
    splitChar sep (a ++ sep :: b) = a :: splitChar sep b := by
  induction a with
  | nil => simp [splitChar]
  | cons c a ih =>
    simp only [List.mem_cons, not_or] at ha
    have ih2 := ih ha.2
    have hrw : (c :: a) ++ sep :: b = c :: (a ++ sep :: b) := rfl
    rw [hrw, splitChar_cons_ne (fun hcc => ha.1 hcc.symm), ih2]

theorem splitChar_two_le {sep : Char} : ∀ {l : List Char}, sep ∈ l →
    2 ≤ (splitChar sep l).length
  | c :: cs, h => by
    unfold splitChar
    split
    · have hne := splitChar_ne_nil sep cs
      have h1 : 1 ≤ (splitChar sep cs).length := by
        cases hsc : splitChar sep cs with
        | nil => exact absurd hsc hne
        | cons p ps => simp
      simp only [List.length_cons]
      omega
    · rename_i hc
      have hcs : sep ∈ cs := by
        rcases List.mem_cons.mp h with h | h
        · exact absurd (by simp [h]) hc
        · exact h
      have ih := splitChar_two_le hcs
      cases hsc : splitChar sep cs with
      | nil => exact absurd hsc (splitChar_ne_nil sep cs)
      | cons p ps =>
        rw [hsc] at ih
        simp only [List.length_cons] at ih ⊢
        omega

/-- A key whose country part has no underscore splits back into exactly
the (date, country) pair it was built from. -/
theorem splitKey_mkKey {d c : String} (hd : '_' ∉ d.data) (hc : '_' ∉ c.data) :
    splitKey (mkKey d c) = some (d, c) := by
  unfold splitKey
  rw [mkKey_data, splitChar_append hd, splitChar_no_sep hc]

/-- A key whose country part contains an underscore splits into more than
two parts, and the unpacking fails. -/
theorem splitKey_us {d c : String} (hd : '_' ∉ d.data) (hc : '_' ∈ c.data) :
    2 < (splitChar '_' (mkKey d c).data).length ∧ splitKey (mkKey d c) = none := by
  have h2 := splitChar_two_le hc
  constructor
  · rw [mkKey_data, splitChar_append hd]
    simp only [List.length_cons]
    omega
  · unfold splitKey
    rw [mkKey_data, splitChar_append hd]
    cases hsc : splitChar '_' c.data with
    | nil => exact absurd hsc (splitChar_ne_nil _ _)
    | cons p ps =>
      rw [hsc] at h2
      cases ps with
      | nil => simp at h2
      | cons q qs => rfl

/-! ## Dict lemmas -/

theorem mem_pyInsert {α : Type} {d : List (String × α)} {k : String} {v : α} {p : String × α}
    (h : p ∈ pyInsert d k v) : p = (k, v) ∨ p ∈ d := by
  unfold pyInsert at h
  split at h
  · rcases List.mem_map.mp h with ⟨q, hq, hqe⟩
    by_cases hqk : (q.1 == k) = true
    · rw [if_pos hqk] at hqe
      exact Or.inl hqe.symm
    · rw [if_neg hqk] at hqe
      exact Or.inr (hqe ▸ hq)
  · rcases List.mem_append.mp h with h | h
    · exact Or.inr h
    · simp at h
      exact Or.inl (by rw [h])

theorem pyInsert_fresh {α : Type} {d : List (String × α)} {k : String} {v : α}
    (h : k ∉ d.map Prod.fst) : pyInsert d k v = d ++ [(k, v)] := by
  unfold pyInsert
  rw [if_neg]
  simp only [List.any_eq_true, beq_iff_eq, not_exists, not_and]
  intro p hp hpe
  exact h (List.mem_map.mpr ⟨p, hp, hpe⟩)

theorem map_id_of {α : Type} {l : List α} {f : α → α} (h : ∀ x ∈ l, f x = x) :
    l.map f = l := by
  induction l with
  | nil => rfl
  | cons x xs ih => simp [h x (by simp), ih (fun y hy => h y (by simp [hy]))]

theorem pyInsert_stale {α : Type} {d : List (String × α)} {k : String} {v : α}
    (hin : k ∈ d.map Prod.fst) (hall : ∀ p ∈ d, p.1 = k → p = (k, v)) :
    pyInsert d k v = d := by
  unfold pyInsert
  rw [if_pos]
  · refine map_id_of (fun p hp => ?_)
    by_cases hpk : (p.1 == k) = true
    · rw [if_pos hpk]
      exact (hall p hp (beq_iff_eq.mp hpk)).symm
    · rw [if_neg hpk]
  · rcases List.mem_map.mp hin with ⟨p, hp, hpe⟩
    exact List.any_eq_true.mpr ⟨p, hp, beq_iff_eq.mpr hpe⟩

theorem dlookup_eq_none {α : Type} {d : List (String × α)} {k : String} :
    dlookup k d = none ↔ k ∉ d.map Prod.fst := by
  induction d with
  | nil => simp [dlookup]
  | cons p ps ih =>
    unfold dlookup
    by_cases hpk : (p.1 == k) = true
    · simp [hpk, beq_iff_eq.mp hpk]
    · simp only [hpk, Bool.false_eq_true, if_false, ih, List.map_cons, List.mem_cons]
      have : ¬ k = p.1 := fun he => hpk (beq_iff_eq.mpr he.symm)
      tauto

theorem dlookup_isSome {α : Type} {d : List (String × α)} {k : String} :
    (dlookup k d).isSome = true ↔ k ∈ d.map Prod.fst := by
  rw [← not_iff_not, ← dlookup_eq_none]
  cases dlookup k d <;> simp

theorem dlookup_of_mem_all {α : Type} {d : List (String × α)} {k : String} {z : α}
    (hk : k ∈ d.map Prod.fst) (hall : ∀ p ∈ d, p.2 = z) : dlookup k d = some z := by
  induction d with
  | nil => simp at hk
  | cons p ps ih =>
    unfold dlookup
    by_cases hpk : (p.1 == k) = true
    · rw [if_pos hpk, hall p (by simp)]
    · rw [if_neg hpk]
      rw [List.map_cons] at hk
      rcases List.mem_cons.mp hk with hk1 | hk1
      · exact absurd (beq_iff_eq.mpr hk1.symm) hpk
      · exact ih hk1 (fun q hq => hall q (List.mem_cons_of_mem _ hq))

theorem dlookup_cons {α : Type} (p : String × α) (ps : List (String × α)) (k : String) :
    dlookup k (p :: ps) = if (p.1 == k) = true then some p.2 else dlookup k ps := rfl

theorem updKey_cons {α : Type} (p : String × α) (ps : List (String × α)) (k : String)
    (f : α → α) :
    updKey (p :: ps) k f = (if (p.1 == k) = true then (k, f p.2) else p) :: updKey ps k f := rfl

theorem updKey_map_fst {α : Type} (d : List (String × α)) (k : String) (f : α → α) :
    (updKey d k f).map Prod.fst = d.map Prod.fst := by
  induction d with
  | nil => rfl
  | cons p ps ih =>
    rw [updKey_cons]
    by_cases hpk : (p.1 == k) = true
    · rw [if_pos hpk, List.map_cons, List.map_cons, ih, beq_iff_eq.mp hpk]
    · rw [if_neg hpk, List.map_cons, List.map_cons, ih]

theorem dlookup_updKey_self {α : Type} (d : List (String × α)) (k : String) (f : α → α) :
    dlookup k (updKey d k f) = (dlookup k d).map f := by
  induction d with
  | nil => rfl
  | cons p ps ih =>
    rw [updKey_cons, dlookup_cons, dlookup_cons]
    by_cases hpk : (p.1 == k) = true
    · rw [if_pos hpk, if_pos hpk]
      have hkk : (((k, f p.2) : String × α).1 == k) = true := beq_iff_eq.mpr rfl
      rw [if_pos hkk]
      rfl
    · rw [if_neg hpk, if_neg hpk, if_neg hpk, ih]

theorem dlookup_updKey_ne {α : Type} {d : List (String × α)} {k q : String} (f : α → α)
    (h : ¬ q = k) : dlookup q (updKey d k f) = dlookup q d := by
  induction d with
  | nil => rfl
  | cons p ps ih =>
    rw [updKey_cons, dlookup_cons, dlookup_cons]
    by_cases hpk : (p.1 == k) = true
    · have hkq : ¬ (((k, f p.2) : String × α).1 == q) = true :=
        fun hc => h (beq_iff_eq.mp hc).symm
      have hpq : ¬ (p.1 == q) = true := by
        rw [beq_iff_eq.mp hpk]
        exact fun hc => h (beq_iff_eq.mp hc).symm
      rw [if_pos hpk, if_neg hkq, if_neg hpq, ih]
    · rw [if_neg hpk, ih]

/-! ## Skeleton normal form -/

theorem mem_skelOf_key {dates cs : List String} {q : String} :
    q ∈ (skelOf dates cs).map Prod.fst ↔ ∃ d ∈ dates, ∃ c ∈ cs, q = mkKey d c := by
  simp only [skelOf, List.map_flatMap, List.map_map, List.mem_flatMap, List.mem_map,
    Function.comp]
  constructor
  · rintro ⟨d, hd, c, hc, he⟩
    exact ⟨d, hd, c, hc, he.symm⟩
  · rintro ⟨d, hd, c, hc, he⟩
    exact ⟨d, hd, c, hc, he.symm⟩

theorem skelOf_values {dates cs : List String} {p : String × Entry} (h : p ∈ skelOf dates cs) :
    p.2 = Entry.zero := by
  simp only [skelOf, List.mem_flatMap, List.mem_map] at h
  rcases h with ⟨d, _, c, _, he⟩
  rw [← he]

theorem skelOf_append (a b cs : List String) :
    skelOf (a ++ b) cs = skelOf a cs ++ skelOf b cs := by
  simp [skelOf]

theorem skelOf_nil (cs : List String) : skelOf [] cs = [] := rfl

theorem skelOf_singleton (d : String) (cs : List String) :
    skelOf [d] cs = cs.map (fun c => (mkKey d c, Entry.zero)) := by
  simp [skelOf]

/-- Keys of the skeleton are pairwise distinct when the date and country
lists are duplicate-free and all dates have the fixed ISO length. -/
theorem skelOf_nodup_keys {dates cs : List String} (hd : dates.Nodup) (hc : cs.Nodup)
    (hlen : ∀ d ∈ dates, d.length = 10) : ((skelOf dates cs).map Prod.fst).Nodup := by
  induction dates with
  | nil => simp [skelOf]
  | cons d ds ih =>
    have hcons : skelOf (d :: ds) cs = skelOf [d] cs ++ skelOf ds cs := skelOf_append [d] ds cs
    rw [hcons, List.map_append, List.nodup_append]
    refine ⟨?_, ?_, ?_⟩
    · rw [skelOf_singleton, List.map_map]
      refine List.Nodup.map_on ?_ hc
      intro x _ y _ hxy
      exact mkKey_inj_country hxy
    · exact ih (List.Nodup.of_cons hd) (fun e he => hlen e (List.mem_cons_of_mem _ he))
    · intro q hq1 hq2
      rw [skelOf_singleton, List.map_map] at hq1
      rcases List.mem_map.mp hq1 with ⟨c, _, hce⟩
      have hce2 : mkKey d c = q := hce
      rcases mem_skelOf_key.mp hq2 with ⟨d2, hd2, c2, _, he2⟩
      have hdd : d = d2 ∧ c = c2 := by
        refine mkKey_inj ?_ (hce2.trans he2)
        rw [hlen d (by simp), hlen d2 (List.mem_cons_of_mem _ hd2)]
      exact (List.nodup_cons.mp hd).1 (hdd.1 ▸ hd2)

/-! ## The dict-building folds of `generate_list` -/

theorem seenAcc_nil (acc : List String) : seenAcc acc [] = acc := rfl

theorem seenAcc_cons (acc : List String) (v : String) (l : List String) :
    seenAcc acc (v :: l) = seenAcc (if v ∈ acc then acc else acc ++ [v]) l := rfl

theorem seenFold_eq_seenAcc (l : List String) : seenFold l = seenAcc [] l := rfl

theorem mem_seenAcc {x : String} : ∀ {l acc : List String},
    (x ∈ seenAcc acc l ↔ x ∈ acc ∨ x ∈ l)
  | [], acc => by simp [seenAcc_nil]
  | v :: l, acc => by
    rw [seenAcc_cons]
    by_cases hv : v ∈ acc
    · rw [if_pos hv, mem_seenAcc]
      simp only [List.mem_cons]
      constructor
      · rintro (h | h)
        · exact Or.inl h
        · exact Or.inr (Or.inr h)
      · rintro (h | h | h)
        · exact Or.inl h
        · exact Or.inl (h ▸ hv)
        · exact Or.inr h
    · rw [if_neg hv, mem_seenAcc]
      simp only [List.mem_append, List.mem_singleton, List.mem_cons]
      tauto

theorem seenAcc_nodup : ∀ {l acc : List String}, acc.Nodup → (seenAcc acc l).Nodup
  | [], acc, h => h
  | v :: l, acc, h => by
    rw [seenAcc_cons]
    by_cases hv : v ∈ acc
    · rw [if_pos hv]
      exact seenAcc_nodup h
    · rw [if_neg hv]
      refine seenAcc_nodup ?_
      simp [List.nodup_append, h, hv]

theorem seenFold_nodup (l : List String) : (seenFold l).Nodup :=
  seenAcc_nodup List.nodup_nil

theorem mem_seenFold {x : String} {l : List String} : x ∈ seenFold l ↔ x ∈ l := by
  rw [seenFold_eq_seenAcc, mem_seenAcc]
  simp

/-- The first-occurrence and last-occurrence deduplications have the same
length: the number of distinct elements. -/
theorem seenFold_length (l : List String) : (seenFold l).length = l.dedup.length := by
  refine List.Perm.length_eq ?_
  rw [List.perm_ext_iff_of_nodup (seenFold_nodup l) (List.nodup_dedup l)]
  intro a
  rw [mem_seenFold, List.mem_dedup]

/-- Re-inserting zero entries whose keys are already present leaves the
dict untouched. -/
theorem innerFold_stale (v : String) : ∀ (cs : List String) (dd : List (String × Entry)),
    (∀ c ∈ cs, mkKey v c ∈ dd.map Prod.fst) → (∀ p ∈ dd, p.2 = Entry.zero) →
    cs.foldl (fun dd c => pyInsert dd (mkKey v c) Entry.zero) dd = dd
  | [], _, _, _ => rfl
  | c :: cs, dd, hin, hall => by
    have hstep : pyInsert dd (mkKey v c) Entry.zero = dd := by
      refine pyInsert_stale (hin c (by simp)) ?_
      intro p hp hpk
      have h2 := hall p hp
      calc p = (p.1, p.2) := rfl
        _ = (mkKey v c, Entry.zero) := by rw [hpk, h2]
    rw [List.foldl_cons, hstep]
    exact innerFold_stale v cs dd (fun c2 hc2 => hin c2 (by simp [hc2])) hall

/-- Inserting zero entries under fresh keys appends them in order. -/
theorem innerFold_fresh (v : String) : ∀ (cs : List String) (dd : List (String × Entry)),
    cs.Nodup → (∀ c ∈ cs, mkKey v c ∉ dd.map Prod.fst) →
    cs.foldl (fun dd c => pyInsert dd (mkKey v c) Entry.zero) dd
      = dd ++ cs.map (fun c => (mkKey v c, Entry.zero))
  | [], dd, _, _ => by simp
  | c :: cs, dd, hnd, hout => by
    rw [List.foldl_cons, pyInsert_fresh (hout c (by simp))]
    have hout2 : ∀ c2 ∈ cs, mkKey v c2 ∉ (dd ++ [(mkKey v c, Entry.zero)]).map Prod.fst := by
      intro c2 hc2
      rw [List.map_append, List.mem_append]
      rintro (h | h)
      · exact hout c2 (by simp [hc2]) h
      · simp only [List.map_cons, List.map_nil, List.mem_singleton] at h
        exact (List.nodup_cons.mp hnd).1 (mkKey_inj_country h ▸ hc2)
    rw [innerFold_fresh v cs _ (List.Nodup.of_cons hnd) hout2]
    simp

/-- The two nested skeleton-building loops of `generate_list` produce the
dense date-block normal form, date duplicates collapsing onto their first
occurrence. -/
theorem skelFold_eq (cs : List String) (hcs : cs.Nodup) :
    ∀ (vals acc : List String), acc.Nodup →
      (∀ v ∈ vals, v.length = 10) → (∀ s ∈ acc, s.length = 10) →
      vals.foldl (fun dd v => cs.foldl (fun dd c => pyInsert dd (mkKey v c) Entry.zero) dd)
        (skelOf acc cs) = skelOf (seenAcc acc vals) cs
  | [], acc, _, _, _ => by rw [seenAcc_nil]; rfl
  | v :: vals, acc, hacc, hv, hs => by
    rw [List.foldl_cons, seenAcc_cons]
    by_cases hin : v ∈ acc
    · rw [if_pos hin]
      have hstale :
          cs.foldl (fun dd c => pyInsert dd (mkKey v c) Entry.zero) (skelOf acc cs)
            = skelOf acc cs := by
        refine innerFold_stale v cs _ ?_ (fun p hp => skelOf_values hp)
        intro c hc
        exact mem_skelOf_key.mpr ⟨v, hin, c, hc, rfl⟩
      rw [hstale]
      exact skelFold_eq cs hcs vals acc hacc (fun x hx => hv x (by simp [hx])) hs
    · rw [if_neg hin]
      have hfresh :
          cs.foldl (fun dd c => pyInsert dd (mkKey v c) Entry.zero) (skelOf acc cs)
            = skelOf acc cs ++ cs.map (fun c => (mkKey v c, Entry.zero)) := by
        refine innerFold_fresh v cs _ hcs ?_
        intro c hc hmem
        rcases mem_skelOf_key.mp hmem with ⟨d2, hd2, c2, hc2, he⟩
        have hp := mkKey_inj (by rw [hv v (by simp), hs d2 hd2]) he
        exact hin (hp.1 ▸ hd2)
      rw [hfresh, ← skelOf_singleton, ← skelOf_append]
      refine skelFold_eq cs hcs vals (acc ++ [v]) ?_ (fun x hx => hv x (by simp [hx])) ?_
      · simp [List.nodup_append, hacc, hin]
      · intro s hsx
        rcases List.mem_append.mp hsx with h | h
        · exact hs s h
        · simp only [List.mem_singleton] at h
          rw [h]
          exact hv v (by simp)

/-- Every element produced by a successful `mapOpt` run comes from
applying the body to some input element. -/
theorem mapOpt_mem {α β : Type} {f : α → Option β} :
    ∀ {xs : List α} {ys : List β}, mapOpt f xs = some ys →
      ∀ y ∈ ys, ∃ x, x ∈ xs ∧ f x = some y := by
  intro xs
  induction xs with
  | nil =>
    intro ys h y hy
    unfold mapOpt at h
    injection h with h
    rw [← h] at hy
    simp at hy
  | cons x xs ih =>
    intro ys h y hy
    unfold mapOpt at h
    cases hfx : f x with
    | none => rw [hfx] at h; simp at h
    | some z =>
      rw [hfx] at h
      cases hrec : mapOpt f xs with
      | none => rw [hrec] at h; simp at h
      | some zs =>
        rw [hrec] at h
        injection h with h
        rw [← h] at hy
        rcases List.mem_cons.mp hy with hy | hy
        · exact ⟨x, by simp, hy ▸ hfx⟩
        · rcases ih hrec y hy with ⟨x2, hx2, hfx2⟩
          exact ⟨x2, by simp [hx2], hfx2⟩

/-- A value predicate satisfied by an accumulator and by all inserted
values is satisfied by the whole insertion fold. -/
theorem foldl_pyInsert_pred {α : Type} (P : α → Prop) :
    ∀ (pairs acc : List (String × α)),
      (∀ p ∈ acc, P p.2) → (∀ kv ∈ pairs, P kv.2) →
      ∀ p ∈ pairs.foldl (fun d kv => pyInsert d kv.1 kv.2) acc, P p.2
  | [], _, hacc, _, p, hp => hacc p hp
  | kv :: pairs, acc, hacc, hps, p, hp => by
    rw [List.foldl_cons] at hp
    refine foldl_pyInsert_pred P pairs (pyInsert acc kv.1 kv.2) ?_
      (fun q hq => hps q (by simp [hq])) p hp
    intro q hq
    rcases mem_pyInsert hq with h | h
    · rw [h]
      exact hps kv (by simp)
    · exact hacc q h

/-- Structure of a successful `generate_list_enum` run: every date in the
dates dict is an ISO rendering of some header label, and the skeleton is
the dense normal form over the distinct dates and the sorted country
enumeration. -/
theorem generate_list_enum_eq {fields enum : List String} {dd : List (String × Entry)}
    {pairs : List (String × String)} (henum : enum.Nodup)
    (h : generate_list_enum fields enum = some (dd, pairs)) :
    (∀ p ∈ pairs, ∃ f2, toIso f2 = some p.2) ∧
    dd = skelOf (seenFold (pairs.map Prod.snd)) (pySorted enum) := by
  unfold generate_list_enum at h
  cases hiso : mapOpt toIso fields with
  | none => rw [hiso] at h; simp at h
  | some isos =>
    rw [hiso] at h
    have h2 := Option.some.inj h
    have hpairs : pairs = (fields.zip isos).foldl (fun d fi => pyInsert d fi.1 fi.2) [] :=
      (congrArg Prod.snd h2).symm
    have hpred : ∀ p ∈ pairs, ∃ f2, toIso f2 = some p.2 := by
      rw [hpairs]
      refine foldl_pyInsert_pred (fun v => ∃ f2, toIso f2 = some v) _ _ (by simp) ?_
      intro kv hkv
      have hz := List.of_mem_zip hkv
      rcases mapOpt_mem hiso kv.2 hz.2 with ⟨x, hx, hfx⟩
      exact ⟨x, hfx⟩
    refine ⟨hpred, ?_⟩
    have hdd : dd = pairs.foldl
        (fun dd p => (pySorted enum).foldl
          (fun dd c => pyInsert dd (mkKey p.2 c) Entry.zero) dd) [] := by
      rw [hpairs]
      exact (congrArg Prod.fst h2).symm
    have hlen : ∀ v ∈ pairs.map Prod.snd, v.length = 10 := by
      intro v hv
      rcases List.mem_map.mp hv with ⟨p, hp, hpe⟩
      rcases hpred p hp with ⟨f2, hf2⟩
      exact hpe ▸ (toIso_shape hf2).1
    have hsortnd : (pySorted enum).Nodup :=
      (List.Perm.nodup_iff (List.perm_insertionSort strLe enum)).mpr henum
    rw [hdd, ← List.foldl_map Prod.snd
      (fun dd v => (pySorted enum).foldl (fun dd c => pyInsert dd (mkKey v c) Entry.zero) dd)]
    rw [show ([] : List (String × Entry)) = skelOf [] (pySorted enum) from rfl]
    rw [skelFold_eq (pySorted enum) hsortnd (pairs.map Prod.snd) [] List.nodup_nil hlen
      (by simp)]
    rfl

/-! ## Merge lemmas -/

theorem applyKind_zero (kind : String) (e : Entry) : applyKind kind e 0 = e := by
  cases e
  simp only [applyKind]
  split_ifs <;> simp

theorem applyKind_add (kind : String) (e : Entry) (a b : Int) :
    applyKind kind (applyKind kind e a) b = applyKind kind e (a + b) := by
  cases e
  simp only [applyKind]
  split_ifs <;> simp [add_assoc]

theorem measureOf_applyKind_self {kind : String}
    (hk : kind = "confirmed" ∨ kind = "deaths" ∨ kind = "recovered") (e : Entry) (v : Int) :
    measureOf kind (applyKind kind e v) = measureOf kind e + v := by
  cases e
  rcases hk with hk | hk | hk <;> subst hk <;> simp [applyKind, measureOf]

theorem measureOf_applyKind_ne {kind kd : String} (h : ¬ kd = kind) (e : Entry) (v : Int) :
    measureOf kd (applyKind kind e v) = measureOf kd e := by
  cases e
  simp only [applyKind, measureOf]
  split_ifs <;> simp_all [beq_iff_eq]

theorem mergeRow_lookup (kind : String) (r : SrcRow) :
    ∀ (ps : List (String × String)) (dd dd2 : List (String × Entry)),
      mergeRow kind r ps dd = some dd2 → ∀ q : String,
      dlookup q dd2 = (dlookup q dd).map (fun e => applyKind kind e (rowContrib ps r q))
  | [], dd, dd2, h, q => by
    injection h with h
    subst h
    unfold rowContrib
    cases dlookup q dd <;> simp [applyKind_zero]
  | (k, v) :: ps, dd, dd2, h, q => by
    unfold mergeRow at h
    cases hl : dlookup (mkKey v r.country) dd with
    | none => rw [hl] at h; exact absurd h (by simp)
    | some e0 =>
      rw [hl] at h
      have ih := mergeRow_lookup kind r ps _ dd2 h q
      rw [ih]
      by_cases hq : q = mkKey v r.country
      · subst hq
        have hcontrib : rowContrib ((k, v) :: ps) r (mkKey v r.country)
            = r.cell k + rowContrib ps r (mkKey v r.country) := by
          unfold rowContrib
          rw [List.filter_cons, if_pos (by simp), List.map_cons, List.sum_cons]
        rw [dlookup_updKey_self, hl, hcontrib]
        simp [applyKind_add]
      · have hcontrib : rowContrib ((k, v) :: ps) r q = rowContrib ps r q := by
          unfold rowContrib
          rw [List.filter_cons, if_neg (by simp [beq_iff_eq]; exact fun hc => hq hc.symm)]
        rw [dlookup_updKey_ne _ hq, hcontrib]

theorem mergeRow_keys (kind : String) (r : SrcRow) :
    ∀ (ps : List (String × String)) (dd dd2 : List (String × Entry)),
      mergeRow kind r ps dd = some dd2 → dd2.map Prod.fst = dd.map Prod.fst
  | [], dd, dd2, h => by
    injection h with h
    rw [h]
  | (k, v) :: ps, dd, dd2, h => by
    unfold mergeRow at h
    cases hl : dlookup (mkKey v r.country) dd with
    | none => rw [hl] at h; exact absurd h (by simp)
    | some e0 =>
      rw [hl] at h
      rw [mergeRow_keys kind r ps _ dd2 h, updKey_map_fst]

theorem mergeRow_success_key (kind : String) (r : SrcRow) :
    ∀ (ps : List (String × String)) (dd dd2 : List (String × Entry)),
      mergeRow kind r ps dd = some dd2 →
      ∀ kv ∈ ps, mkKey kv.2 r.country ∈ dd.map Prod.fst
  | [], _, _, _, kv, hkv => absurd hkv (by simp)
  | (k, v) :: ps, dd, dd2, h, kv, hkv => by
    unfold mergeRow at h
    cases hl : dlookup (mkKey v r.country) dd with
    | none => rw [hl] at h; exact absurd h (by simp)
    | some e0 =>
      rw [hl] at h
      rcases List.mem_cons.mp hkv with hkv | hkv
      · rw [hkv]
        exact dlookup_isSome.mp (by rw [hl]; rfl)
      · have ih := mergeRow_success_key kind r ps _ dd2 h kv hkv
        rw [updKey_map_fst] at ih
        exact ih

theorem mergeRows_keys (kind : String) (pairs : List (String × String)) :
    ∀ (rows : List SrcRow) (dd dd2 : List (String × Entry)),
      mergeRows kind pairs rows dd = some dd2 → dd2.map Prod.fst = dd.map Prod.fst
  | [], dd, dd2, h => by
    injection h with h
    rw [h]
  | r :: rows, dd, dd2, h => by
    unfold mergeRows at h
    cases hm : mergeRow kind r pairs dd with
    | none => rw [hm] at h; exact absurd h (by simp)
    | some dd1 =>
      rw [hm] at h
      rw [mergeRows_keys kind pairs rows dd1 dd2 h, mergeRow_keys kind r pairs dd dd1 hm]

theorem mergeRows_lookup (kind : String) (pairs : List (String × String)) :
    ∀ (rows : List SrcRow) (dd dd2 : List (String × Entry)),
      mergeRows kind pairs rows dd = some dd2 → ∀ q : String,
      dlookup q dd2 = (dlookup q dd).map (fun e => applyKind kind e (totalContrib rows pairs q))
  | [], dd, dd2, h, q => by
    injection h with h
    subst h
    unfold totalContrib
    cases dlookup q dd <;> simp [applyKind_zero]
  | r :: rows, dd, dd2, h, q => by
    unfold mergeRows at h
    cases hm : mergeRow kind r pairs dd with
    | none => rw [hm] at h; exact absurd h (by simp)
    | some dd1 =>
      rw [hm] at h
      have ih := mergeRows_lookup kind pairs rows dd1 dd2 h q
      rw [ih, mergeRow_lookup kind r pairs dd dd1 hm q]
      have hsum : totalContrib (r :: rows) pairs q
          = rowContrib pairs r q + totalContrib rows pairs q := by
        unfold totalContrib
        rw [List.map_cons, List.sum_cons]
      rw [hsum]
      cases dlookup q dd <;> simp [applyKind_add]

theorem mergeRows_success_mem (kind : String) (pairs : List (String × String)) :
    ∀ (rows : List SrcRow) (dd dd2 : List (String × Entry)),
      mergeRows kind pairs rows dd = some dd2 →
      ∀ r ∈ rows, ∀ kv ∈ pairs, mkKey kv.2 r.country ∈ dd.map Prod.fst
  | [], _, _, _, r, hr, _, _ => absurd hr (by simp)
  | r0 :: rows, dd, dd2, h, r, hr, kv, hkv => by
    unfold mergeRows at h
    cases hm : mergeRow kind r0 pairs dd with
    | none => rw [hm] at h; exact absurd h (by simp)
    | some dd1 =>
      rw [hm] at h
      rcases List.mem_cons.mp hr with hr | hr
      · rw [hr]
        exact mergeRow_success_key kind r0 pairs dd dd1 hm kv hkv
      · have ih := mergeRows_success_mem kind pairs rows dd1 dd2 h r hr kv hkv
        rw [mergeRow_keys kind r0 pairs dd dd1 hm] at ih
        exact ih

/-- A first-pair key missing for any row of a source aborts that source
merge with a `KeyError`. -/
theorem mergeRows_missing (kind : String) (pairs : List (String × String)) :
    ∀ (rows : List SrcRow) (dd : List (String × Entry)) (r : SrcRow) (kf v : String),
      r ∈ rows → (kf, v) ∈ pairs → mkKey v r.country ∉ dd.map Prod.fst →
      mergeRows kind pairs rows dd = none
  | [], _, _, _, _, hr, _, _ => absurd hr (by simp)
  | r0 :: rows, dd, r, kf, v, hr, hp, hmiss => by
    unfold mergeRows
    cases hm : mergeRow kind r0 pairs dd with
    | none => rfl
    | some dd1 =>
      rcases List.mem_cons.mp hr with hre | hre
      · subst hre
        exact absurd (mergeRow_success_key kind r pairs dd dd1 hm (kf, v) hp) hmiss
      · have hmiss1 : mkKey v r.country ∉ dd1.map Prod.fst := by
          rw [mergeRow_keys kind r0 pairs dd dd1 hm]
          exact hmiss
        exact mergeRows_missing kind pairs rows dd1 r kf v hre hp hmiss1

/-! ## Column sums -/

theorem sum_map_add (cs : List String) (f g : String → Int) :
    (cs.map (fun c => f c + g c)).sum = (cs.map f).sum + (cs.map g).sum := by
  induction cs with
  | nil => simp
  | cons c cs ih =>
    simp only [List.map_cons, List.sum_cons, ih]
    ring

theorem sum_map_zero_int (cs : List String) : (cs.map (fun _ => (0 : Int))).sum = 0 := by
  induction cs with
  | nil => rfl
  | cons c cs ih => simp [ih]

theorem sum_map_eq_zero (cs : List String) (f : String → Int) (h : ∀ c ∈ cs, f c = 0) :
    (cs.map f).sum = 0 := by
  induction cs with
  | nil => rfl
  | cons c cs ih => simp [h c (by simp), ih (fun y hy => h y (by simp [hy]))]

theorem sum_ite_single {c0 : String} {x : Int} :
    ∀ {cs : List String}, cs.Nodup → c0 ∈ cs →
      (cs.map (fun c => if c0 = c then x else 0)).sum = x := by
  intro cs
  induction cs with
  | nil => intro _ h; simp at h
  | cons c cs ih =>
    intro hnd hc0
    rw [List.map_cons, List.sum_cons]
    rcases List.mem_cons.mp hc0 with he | he
    · subst he
      rw [if_pos rfl]
      have hout := (List.nodup_cons.mp hnd).1
      have hz : ∀ c ∈ cs, (if c0 = c then x else (0 : Int)) = 0 := by
        intro c hc
        apply if_neg
        intro he2
        exact hout (he2 ▸ hc)
      rw [sum_map_eq_zero cs _ hz]
      ring
    · have hne : ¬ c0 = c := fun he2 => (List.nodup_cons.mp hnd).1 (he2 ▸ he)
      rw [if_neg hne, ih (List.nodup_cons.mp hnd).2 he]
      ring

theorem pySorted_sorted (l : List String) : List.Sorted strLe (pySorted l) :=
  List.sorted_insertionSort strLe l

theorem pySorted_perm (l : List String) : (pySorted l).Perm l :=
  List.perm_insertionSort strLe l

theorem skelOf_length : ∀ (dates cs : List String),
    (skelOf dates cs).length = dates.length * cs.length
  | [], cs => by simp [skelOf]
  | d :: ds, cs => by
    have hcons : skelOf (d :: ds) cs = skelOf [d] cs ++ skelOf ds cs := skelOf_append [d] ds cs
    rw [hcons, List.length_append, skelOf_singleton, List.length_map,
      skelOf_length ds cs, List.length_cons]
    ring

/-- One bad key anywhere in the dict makes the whole output step fail. -/
theorem writeOutput_none {dd : List (String × Entry)} {k : String}
    (hk : k ∈ dd.map Prod.fst) (h : splitKey k = none) : writeOutput dd = none := by
  induction dd with
  | nil => simp at hk
  | cons p ps ih =>
    simp only [List.map_cons, List.mem_cons] at hk
    unfold writeOutput mapOpt
    rcases hk with hk | hk
    · subst hk
      simp [h]
    · cases hsk : splitKey p.1 with
      | none => simp [hsk]
      | some ic =>
        have hrec := ih hk
        unfold writeOutput at hrec
        simp [hsk, hrec]

theorem filter_false_nil {β : Type} (p : β → Bool) :
    ∀ (l : List β), (∀ x ∈ l, ¬ (p x = true)) → l.filter p = []
  | [], _ => rfl
  | x :: xs, h => by
    rw [List.filter_cons, if_neg (h x (by simp))]
    exact filter_false_nil p xs (fun y hy => h y (by simp [hy]))

theorem sum_map_congr {β : Type} (l : List β) (f g : β → Int)
    (h : ∀ x ∈ l, f x = g x) : (l.map f).sum = (l.map g).sum := by
  induction l with
  | nil => rfl
  | cons x xs ih =>
    rw [List.map_cons, List.map_cons, List.sum_cons, List.sum_cons, h x (by simp),
      ih (fun y hy => h y (by simp [hy]))]

/-- With duplicate-free dates, the only date pair contributing to the key
of date `v` is the one column labelled `kf`. -/
theorem filter_key_singleton (r : SrcRow) (kf v c : String) :
    ∀ (pairs : List (String × String)), (pairs.map Prod.snd).Nodup → (kf, v) ∈ pairs →
      (∀ p ∈ pairs, ((mkKey p.2 r.country == mkKey v c) = true) ↔ (p.2 = v ∧ r.country = c)) →
      r.country = c →
      pairs.filter (fun p => mkKey p.2 r.country == mkKey v c) = [(kf, v)]
  | [], _, hmem, _, _ => absurd hmem (by simp)
  | q :: qs, hnd, hmem, hiff, hrc => by
    have hnd2 : (q.2 :: qs.map Prod.snd).Nodup := by
      rw [← List.map_cons]
      exact hnd
    rw [List.filter_cons]
    by_cases hq2 : q.2 = v
    · have hq : q = (kf, v) := by
        rcases List.mem_cons.mp hmem with h | h
        · exact h.symm
        · exfalso
          have hv : v ∈ qs.map Prod.snd := List.mem_map.mpr ⟨(kf, v), h, rfl⟩
          exact (List.nodup_cons.mp hnd2).1 (hq2 ▸ hv)
      rw [if_pos ((hiff q (by simp)).mpr ⟨hq2, hrc⟩)]
      have hnil : qs.filter (fun p => mkKey p.2 r.country == mkKey v c) = [] := by
        refine filter_false_nil _ qs (fun p hp hpred => ?_)
        have hp2 : p.2 = v := ((hiff p (by simp [hp])).mp hpred).1
        have hv : v ∈ qs.map Prod.snd := List.mem_map.mpr ⟨p, hp, hp2⟩
        exact (List.nodup_cons.mp hnd2).1 (hq2 ▸ hv)
      rw [hnil, hq]
    · have hqf : ¬ ((mkKey q.2 r.country == mkKey v c) = true) :=
        fun hp => hq2 ((hiff q (by simp)).mp hp).1
      rw [if_neg hqf]
      have hmem2 : (kf, v) ∈ qs := by
        rcases List.mem_cons.mp hmem with h | h
        · exact absurd (congrArg Prod.snd h.symm) hq2
        · exact h
      exact filter_key_singleton r kf v c qs (List.nodup_cons.mp hnd2).2 hmem2
        (fun p hp => hiff p (by simp [hp])) hrc

/-- What one row adds to the skeleton entry of date `v` and region `c`:
its `kf` column when the row region is `c`, nothing otherwise. -/
theorem rowContrib_eq {pairs : List (String × String)} {kf v : String} (r : SrcRow)
    (c : String) (hnd : (pairs.map Prod.snd).Nodup) (hmem : (kf, v) ∈ pairs)
    (hlen : ∀ p ∈ pairs, p.2.length = 10) :
    rowContrib pairs r (mkKey v c) = if r.country = c then r.cell kf else 0 := by
  have hv10 : v.length = 10 := hlen (kf, v) hmem
  have hiff : ∀ p ∈ pairs,
      ((mkKey p.2 r.country == mkKey v c) = true) ↔ (p.2 = v ∧ r.country = c) := by
    intro p hp
    rw [beq_iff_eq]
    constructor
    · intro he
      exact mkKey_inj (by rw [hlen p hp, hv10]) he
    · rintro ⟨h1, h2⟩
      rw [h1, h2]
  by_cases hrc : r.country = c
  · rw [if_pos hrc]
    unfold rowContrib
    rw [filter_key_singleton r kf v c pairs hnd hmem hiff hrc]
    simp
  · rw [if_neg hrc]
    unfold rowContrib
    rw [filter_false_nil _ pairs (fun p hp hpred => hrc ((hiff p hp).mp hpred).2)]
    rfl

/-- Exchanging the two summations: summing the per-region sums over all
regions gives the plain column sum, provided every row region occurs
exactly once in the region list. -/
theorem sum_swap_partition (kf : String) :
    ∀ (rows : List SrcRow) (cs : List String), cs.Nodup →
      (∀ r ∈ rows, r.country ∈ cs) →
      (cs.map (fun c =>
        (rows.map (fun r => if r.country = c then r.cell kf else 0)).sum)).sum
        = (rows.map (fun r => r.cell kf)).sum
  | [], cs, _, _ => by
    rw [sum_map_eq_zero cs _ (fun c _ => by simp)]
    rfl
  | r :: rows, cs, hnd, hmem => by
    have hstep : ∀ c ∈ cs,
        ((r :: rows).map (fun r2 => if r2.country = c then r2.cell kf else 0)).sum
          = (if r.country = c then r.cell kf else 0)
            + (rows.map (fun r2 => if r2.country = c then r2.cell kf else 0)).sum := by
      intro c _
      rw [List.map_cons, List.sum_cons]
    rw [sum_map_congr cs _ _ hstep, sum_map_add, sum_ite_single hnd (hmem r (by simp)),
      sum_swap_partition kf rows cs hnd (fun r2 hr2 => hmem r2 (by simp [hr2])),
      List.map_cons, List.sum_cons]

/-! ## Claim C2 -/

/-- C2: for every date column and every measure, the per-date sum of that
measure over all regions of the merged table equals the plain sum of that
per-date column over all rows of the corresponding raw source — rows sharing
a `Country/Region` value accumulate into the same skeleton entry. -/
theorem C2_column_sums
    {fields : List String} {conf dths recov : List SrcRow}
    {dd0 dd1 dd2 dd3 : List (String × Entry)} {pairs : List (String × String)}
    (h0 : generate_list fields conf = some (dd0, pairs))
    (h1 : mergeRows "confirmed" pairs conf dd0 = some dd1)
    (h2 : mergeRows "deaths" pairs dths dd1 = some dd2)
    (h3 : mergeRows "recovered" pairs recov dd2 = some dd3)
    (hnd : (pairs.map Prod.snd).Nodup)
    {kf v : String} (hp : (kf, v) ∈ pairs) :
    dateSum dd3 (pySorted ((conf.map SrcRow.country).dedup)) v "confirmed"
        = (conf.map (fun r => r.cell kf)).sum ∧
    dateSum dd3 (pySorted ((conf.map SrcRow.country).dedup)) v "deaths"
        = (dths.map (fun r => r.cell kf)).sum ∧
    dateSum dd3 (pySorted ((conf.map SrcRow.country).dedup)) v "recovered"
        = (recov.map (fun r => r.cell kf)).sum := by
  obtain ⟨hpred, hdd⟩ := generate_list_enum_eq (List.nodup_dedup _) h0
  have hlen10 : ∀ p ∈ pairs, p.2.length = 10 := by
    intro p hp2
    rcases hpred p hp2 with ⟨f2, hf2⟩
    exact (toIso_shape hf2).1
  have hv10 : v.length = 10 := hlen10 (kf, v) hp
  have hvdates : v ∈ seenFold (pairs.map Prod.snd) :=
    mem_seenFold.mpr (List.mem_map.mpr ⟨(kf, v), hp, rfl⟩)
  have hdates10 : ∀ d ∈ seenFold (pairs.map Prod.snd), d.length = 10 := by
    intro d hd
    rcases List.mem_map.mp (mem_seenFold.mp hd) with ⟨p, hp2, hpe⟩
    exact hpe ▸ hlen10 p hp2
  have hcsnd : (pySorted ((conf.map SrcRow.country).dedup)).Nodup :=
    (List.Perm.nodup_iff (pySorted_perm _)).mpr (List.nodup_dedup _)
  have hk1 : dd1.map Prod.fst = dd0.map Prod.fst := mergeRows_keys _ _ _ _ _ h1
  have hk2 : dd2.map Prod.fst = dd1.map Prod.fst := mergeRows_keys _ _ _ _ _ h2
  have hcountry : ∀ (dd : List (String × Entry)), dd.map Prod.fst = dd0.map Prod.fst →
      ∀ {kind : String} {rows : List SrcRow} {dd' : List (String × Entry)},
        mergeRows kind pairs rows dd = some dd' →
        ∀ r ∈ rows, r.country ∈ pySorted ((conf.map SrcRow.country).dedup) := by
    intro dd hkeys kind rows dd' hm r hr
    have hmem := mergeRows_success_mem kind pairs rows dd dd' hm r hr (kf, v) hp
    rw [hkeys, hdd] at hmem
    rcases mem_skelOf_key.mp hmem with ⟨d2, hd2, c2, hc2, he⟩
    have hinj := mkKey_inj (by rw [hv10, hdates10 d2 hd2]) he
    rw [hinj.2]
    exact hc2
  have hmemconf := hcountry dd0 rfl h1
  have hmemdths := hcountry dd1 hk1 h2
  have hmemrecov := hcountry dd2 (hk2.trans hk1) h3
  have htc : ∀ (rows : List SrcRow) (c : String),
      totalContrib rows pairs (mkKey v c)
        = (rows.map (fun r => if r.country = c then r.cell kf else 0)).sum := by
    intro rows c
    unfold totalContrib
    exact sum_map_congr rows _ _ (fun r _ => rowContrib_eq r c hnd hp hlen10)
  have hlook : ∀ c ∈ pySorted ((conf.map SrcRow.country).dedup),
      dlookup (mkKey v c) dd3 =
        some (applyKind "recovered"
          (applyKind "deaths"
            (applyKind "confirmed" Entry.zero (totalContrib conf pairs (mkKey v c)))
            (totalContrib dths pairs (mkKey v c)))
          (totalContrib recov pairs (mkKey v c))) := by
    intro c hc
    have l0 : dlookup (mkKey v c) dd0 = some Entry.zero := by
      rw [hdd]
      exact dlookup_of_mem_all (mem_skelOf_key.mpr ⟨v, hvdates, c, hc, rfl⟩)
        (fun p hp2 => skelOf_values hp2)
    rw [mergeRows_lookup _ _ _ _ _ h3 _, mergeRows_lookup _ _ _ _ _ h2 _,
      mergeRows_lookup _ _ _ _ _ h1 _, l0]
    rfl
  refine ⟨?_, ?_, ?_⟩
  · have hentries : ∀ c ∈ pySorted ((conf.map SrcRow.country).dedup),
        measureOf "confirmed" ((dlookup (mkKey v c) dd3).getD Entry.zero)
          = (conf.map (fun r => if r.country = c then r.cell kf else 0)).sum := by
      intro c hc
      rw [hlook c hc, Option.getD_some,
        measureOf_applyKind_ne (by decide), measureOf_applyKind_ne (by decide),
        measureOf_applyKind_self (Or.inl rfl),
        show measureOf "confirmed" Entry.zero = 0 from rfl, zero_add]
      exact htc conf c
    unfold dateSum
    rw [sum_map_congr _ _ _ hentries]
    exact sum_swap_partition kf conf _ hcsnd hmemconf
  · have hentries : ∀ c ∈ pySorted ((conf.map SrcRow.country).dedup),
        measureOf "deaths" ((dlookup (mkKey v c) dd3).getD Entry.zero)
          = (dths.map (fun r => if r.country = c then r.cell kf else 0)).sum := by
      intro c hc
      rw [hlook c hc, Option.getD_some,
        measureOf_applyKind_ne (by decide),
        measureOf_applyKind_self (Or.inr (Or.inl rfl)),
        measureOf_applyKind_ne (by decide),
        show measureOf "deaths" Entry.zero = 0 from rfl, zero_add]
      exact htc dths c
    unfold dateSum
    rw [sum_map_congr _ _ _ hentries]
    exact sum_swap_partition kf dths _ hcsnd hmemdths
  · have hentries : ∀ c ∈ pySorted ((conf.map SrcRow.country).dedup),
        measureOf "recovered" ((dlookup (mkKey v c) dd3).getD Entry.zero)
          = (recov.map (fun r => if r.country = c then r.cell kf else 0)).sum := by
      intro c hc
      rw [hlook c hc, Option.getD_some,
        measureOf_applyKind_self (Or.inr (Or.inr rfl)),
        measureOf_applyKind_ne (by decide), measureOf_applyKind_ne (by decide),
        show measureOf "recovered" Entry.zero = 0 from rfl, zero_add]
      exact htc recov c
    unfold dateSum
    rw [sum_map_congr _ _ _ hentries]
    exact sum_swap_partition kf recov _ hcsnd hmemrecov

/-! ## Claim C1 -/

/-- C1: for every input source table accepted by the global pipeline, the
skeleton built by `generate_list` is the dense normal form over the known
dates and regions: region list sorted lexicographically, keys pairwise
distinct, one key for exactly every (known date, known region) pair, every
measure initialised to zero, and cardinality equal to the number of
distinct dates times the number of distinct regions. -/
theorem C1_generate_list_skeleton
    {fields : List String} {rows : List SrcRow} {dd0 : List (String × Entry)}
    {pairs : List (String × String)}
    (h : generate_list fields rows = some (dd0, pairs)) :
    dd0 = skelOf (seenFold (pairs.map Prod.snd))
        (pySorted ((rows.map SrcRow.country).dedup)) ∧
    List.Sorted strLe (pySorted ((rows.map SrcRow.country).dedup)) ∧
    (dd0.map Prod.fst).Nodup ∧
    (∀ q : String, q ∈ dd0.map Prod.fst ↔
      ∃ d ∈ pairs.map Prod.snd, ∃ c ∈ rows.map SrcRow.country, q = mkKey d c) ∧
    (∀ p ∈ dd0, p.2 = Entry.zero) ∧
    dd0.length = (pairs.map Prod.snd).dedup.length * (rows.map SrcRow.country).dedup.length := by
  obtain ⟨hpred, hdd⟩ := generate_list_enum_eq (List.nodup_dedup _) h
  have hlen10 : ∀ d ∈ pairs.map Prod.snd, d.length = 10 := by
    intro d hd
    rcases List.mem_map.mp hd with ⟨p, hp, hpe⟩
    rcases hpred p hp with ⟨f2, hf2⟩
    exact hpe ▸ (toIso_shape hf2).1
  have hdates10 : ∀ d ∈ seenFold (pairs.map Prod.snd), d.length = 10 :=
    fun d hd => hlen10 d (mem_seenFold.mp hd)
  have hcsnd : (pySorted ((rows.map SrcRow.country).dedup)).Nodup :=
    (List.Perm.nodup_iff (pySorted_perm _)).mpr (List.nodup_dedup _)
  have hmemcs : ∀ c, c ∈ pySorted ((rows.map SrcRow.country).dedup) ↔
      c ∈ rows.map SrcRow.country := by
    intro c
    rw [List.Perm.mem_iff (pySorted_perm _), List.mem_dedup]
  refine ⟨hdd, pySorted_sorted _, ?_, ?_, ?_, ?_⟩
  · rw [hdd]
    exact skelOf_nodup_keys (seenFold_nodup _) hcsnd hdates10
  · intro q
    rw [hdd, mem_skelOf_key]
    constructor
    · rintro ⟨d, hd, c, hc, he⟩
      exact ⟨d, mem_seenFold.mp hd, c, (hmemcs c).mp hc, he⟩
    · rintro ⟨d, hd, c, hc, he⟩
      exact ⟨d, mem_seenFold.mpr hd, c, (hmemcs c).mpr hc, he⟩
  · intro p hp
    rw [hdd] at hp
    exact skelOf_values hp
  · rw [hdd, skelOf_length, seenFold_length,
      List.Perm.length_eq (pySorted_perm ((rows.map SrcRow.country).dedup))]

/-- C1 witness: a two-region, one-date run, evaluated concretely. -/
theorem C1_witness :
    generate_list ["1/22/20"]
        [SrcRow.mk "B" (fun _ => 0), SrcRow.mk "A" (fun _ => 0)]
      = some ([("2020-01-22_A", Entry.zero), ("2020-01-22_B", Entry.zero)],
              [("1/22/20", "2020-01-22")]) ∧
    (([("2020-01-22_A", Entry.zero), ("2020-01-22_B", Entry.zero)].map Prod.fst).Nodup ∧
      [("2020-01-22_A", Entry.zero), ("2020-01-22_B", Entry.zero)].length
        = ([("1/22/20", "2020-01-22")].map Prod.snd).dedup.length *
          (([SrcRow.mk "B" (fun _ => (0 : Int)), SrcRow.mk "A" (fun _ => 0)].map
            SrcRow.country).dedup.length)) := by
  have h : generate_list ["1/22/20"]
      [SrcRow.mk "B" (fun _ => 0), SrcRow.mk "A" (fun _ => 0)]
      = some ([("2020-01-22_A", Entry.zero), ("2020-01-22_B", Entry.zero)],
              [("1/22/20", "2020-01-22")]) := by decide
  have h2 := C1_generate_list_skeleton h
  exact ⟨h, h2.2.2.1, h2.2.2.2.2.2⟩

/-- C2 witness: one date, one region reported by two raw rows; their
values are summed into the same entry, and every per-date column sum
matches its source. -/
theorem C2_witness :
    dateSum [("2020-01-22_A", Entry.mk 5 1 4)]
        (pySorted (([SrcRow.mk "A" (fun _ => (2 : Int)),
          SrcRow.mk "A" (fun _ => 3)].map SrcRow.country).dedup))
        "2020-01-22" "confirmed"
      = ([SrcRow.mk "A" (fun _ => (2 : Int)), SrcRow.mk "A" (fun _ => 3)].map
          (fun r => r.cell "1/22/20")).sum ∧
    dateSum [("2020-01-22_A", Entry.mk 5 1 4)]
        (pySorted (([SrcRow.mk "A" (fun _ => (2 : Int)),
          SrcRow.mk "A" (fun _ => 3)].map SrcRow.country).dedup))
        "2020-01-22" "deaths"
      = ([SrcRow.mk "A" (fun _ => (1 : Int))].map (fun r => r.cell "1/22/20")).sum ∧
    dateSum [("2020-01-22_A", Entry.mk 5 1 4)]
        (pySorted (([SrcRow.mk "A" (fun _ => (2 : Int)),
          SrcRow.mk "A" (fun _ => 3)].map SrcRow.country).dedup))
        "2020-01-22" "recovered"
      = ([SrcRow.mk "A" (fun _ => (4 : Int))].map (fun r => r.cell "1/22/20")).sum := by
  have h0 : generate_list ["1/22/20"]
      [SrcRow.mk "A" (fun _ => 2), SrcRow.mk "A" (fun _ => 3)]
      = some ([("2020-01-22_A", Entry.zero)], [("1/22/20", "2020-01-22")]) := by decide
  have h1 : mergeRows "confirmed" [("1/22/20", "2020-01-22")]
      [SrcRow.mk "A" (fun _ => 2), SrcRow.mk "A" (fun _ => 3)]
      [("2020-01-22_A", Entry.zero)]
      = some [("2020-01-22_A", Entry.mk 5 0 0)] := by decide
  have h2 : mergeRows "deaths" [("1/22/20", "2020-01-22")] [SrcRow.mk "A" (fun _ => 1)]
      [("2020-01-22_A", Entry.mk 5 0 0)] = some [("2020-01-22_A", Entry.mk 5 1 0)] := by decide
  have h3 : mergeRows "recovered" [("1/22/20", "2020-01-22")] [SrcRow.mk "A" (fun _ => 4)]
      [("2020-01-22_A", Entry.mk 5 1 0)] = some [("2020-01-22_A", Entry.mk 5 1 4)] := by decide
  exact C2_column_sums h0 h1 h2 h3 (by decide) (by decide)

/-! ## Claim C3 -/

/-- C3 (amended): a row of either non-authoritative source (deaths or
recovered) whose `Country/Region` is absent from the skeleton does not
merge silently — as soon as there is at least one date column, the lookup
`data_dict[temp_key]` raises `KeyError` and `main` produces no output at
all.  (A confirmed-source row can never be in this situation: the
skeleton's region set is built from the confirmed source itself.) -/
theorem C3_missing_region_aborts
    {fields : List String} {conf dths recov : List SrcRow}
    {dd0 : List (String × Entry)} {pairs : List (String × String)}
    (h0 : generate_list fields conf = some (dd0, pairs))
    (hpairs : pairs ≠ [])
    {r : SrcRow} (hr : r ∈ dths ∨ r ∈ recov)
    (hmiss : r.country ∉ conf.map SrcRow.country) :
    mainGlobal fields conf dths recov = none := by
  obtain ⟨hpred, hdd⟩ := generate_list_enum_eq (List.nodup_dedup _) h0
  obtain ⟨⟨kf, v⟩, hp⟩ : ∃ p, p ∈ pairs := by
    cases pairs with
    | nil => exact absurd rfl hpairs
    | cons p ps => exact ⟨p, by simp⟩
  have hlen10 : ∀ p ∈ pairs, p.2.length = 10 := by
    intro p hp2
    rcases hpred p hp2 with ⟨f2, hf2⟩
    exact (toIso_shape hf2).1
  have hmiss0 : mkKey v r.country ∉ dd0.map Prod.fst := by
    rw [hdd]
    intro hmem
    rcases mem_skelOf_key.mp hmem with ⟨d2, hd2, c2, hc2, he⟩
    have hd210 : d2.length = 10 := by
      rcases List.mem_map.mp (mem_seenFold.mp hd2) with ⟨p, hp2, hpe⟩
      exact hpe ▸ hlen10 p hp2
    have hinj := mkKey_inj (by rw [hlen10 (kf, v) hp, hd210]) he
    have hcc : r.country ∈ (conf.map SrcRow.country).dedup :=
      (List.Perm.mem_iff (pySorted_perm _)).mp (hinj.2 ▸ hc2)
    exact hmiss (List.mem_dedup.mp hcc)
  have hgen : generate_list_enum fields ((conf.map SrcRow.country).dedup)
      = some (dd0, pairs) := h0
  unfold mainGlobal mainGlobalEnum
  rw [hgen]
  show (match mergeRows "confirmed" pairs conf dd0 with
    | none => none
    | some dd1 =>
      match mergeRows "deaths" pairs dths dd1 with
      | none => none
      | some dd2 =>
        match mergeRows "recovered" pairs recov dd2 with
        | none => none
        | some dd3 => writeOutput dd3) = none
  cases hm1 : mergeRows "confirmed" pairs conf dd0 with
  | none => rfl
  | some dd1 =>
    have hmiss1 : mkKey v r.country ∉ dd1.map Prod.fst := by
      rw [mergeRows_keys _ _ _ _ _ hm1]
      exact hmiss0
    show (match mergeRows "deaths" pairs dths dd1 with
      | none => none
      | some dd2 =>
        match mergeRows "recovered" pairs recov dd2 with
        | none => none
        | some dd3 => writeOutput dd3) = none
    rcases hr with hr | hr
    · rw [mergeRows_missing "deaths" pairs dths dd1 r kf v hr hp hmiss1]
    · cases hm2 : mergeRows "deaths" pairs dths dd1 with
      | none => rfl
      | some dd2 =>
        have hmiss2 : mkKey v r.country ∉ dd2.map Prod.fst := by
          rw [mergeRows_keys _ _ _ _ _ hm2]
          exact hmiss1
        show (match mergeRows "recovered" pairs recov dd2 with
          | none => none
          | some dd3 => writeOutput dd3) = none
        rw [mergeRows_missing "recovered" pairs recov dd2 r kf v hr hp hmiss2]

/-- C3 counterexample: with one date column, one skeleton region `"A"` and
a deaths row for region `"B"`, the run aborts (`none`) instead of
completing with the row silently dropped. -/
theorem C3_counterexample :
    mainGlobal ["1/22/20"] [SrcRow.mk "A" (fun _ => 0)] [SrcRow.mk "B" (fun _ => 1)] []
      = none := by decide

/-- C3 witness: the amended statement applied to two concrete runs, once
with the stray region in the deaths source and once with it in the
recovered source. -/
theorem C3_witness :
    mainGlobal ["1/22/20"] [SrcRow.mk "A" (fun _ => 2)] [SrcRow.mk "B" (fun _ => 1)]
        [SrcRow.mk "A" (fun _ => 3)] = none ∧
    mainGlobal ["1/22/20"] [SrcRow.mk "A" (fun _ => 2)] [SrcRow.mk "A" (fun _ => 1)]
        [SrcRow.mk "B" (fun _ => 3)] = none := by
  have h0 : generate_list ["1/22/20"] [SrcRow.mk "A" (fun _ => 2)]
      = some ([("2020-01-22_A", Entry.zero)], [("1/22/20", "2020-01-22")]) := by decide
  constructor
  · have hr : SrcRow.mk "B" (fun _ => (1 : Int)) ∈ [SrcRow.mk "B" (fun _ => (1 : Int))] :=
      List.mem_singleton.mpr rfl
    exact C3_missing_region_aborts h0 (by decide) (Or.inl hr) (by decide)
  · have hr : SrcRow.mk "B" (fun _ => (3 : Int)) ∈ [SrcRow.mk "B" (fun _ => (3 : Int))] :=
      List.mem_singleton.mpr rfl
    exact C3_missing_region_aborts h0 (by decide) (Or.inr hr) (by decide)

/-! ## Claim C6 -/

/-- C6: both reconcilers are deterministic functions of their inputs.  The
Mexican converter has no internal choice at all, so equal catalog and row
inputs give equal outputs definitionally; the single global-pipeline
run-to-run varying choice — the iteration order of the Python `set` of
regions — is proven irrelevant: any two enumerations of the same region
set produce identical output. -/
theorem C6_determinism :
    (∀ (fields e1 e2 : List String) (conf dths recov : List SrcRow),
      e1.Perm e2 →
      mainGlobalEnum fields e1 conf dths recov = mainGlobalEnum fields e2 conf dths recov) ∧
    (∀ (cat1 cat2 : Catalogs) (rows1 rows2 : List CaseRecord),
      cat1 = cat2 → rows1 = rows2 → convert cat1 rows1 = convert cat2 rows2) := by
  constructor
  · intro fields e1 e2 conf dths recov hperm
    have hsort : pySorted e1 = pySorted e2 :=
      List.eq_of_perm_of_sorted
        ((pySorted_perm e1).trans (hperm.trans (pySorted_perm e2).symm))
        (pySorted_sorted e1) (pySorted_sorted e2)
    unfold mainGlobalEnum generate_list_enum
    rw [hsort]
  · intro cat1 cat2 rows1 rows2 hc hr
    rw [hc, hr]

/-- C6 witness: two enumeration orders of the same two-region set produce
the same output. -/
theorem C6_witness :
    mainGlobalEnum ["1/22/20"] ["B", "A"] [SrcRow.mk "A" (fun _ => 1)] [] []
      = mainGlobalEnum ["1/22/20"] ["A", "B"] [SrcRow.mk "A" (fun _ => 1)] [] [] ∧
    convert (Catalogs.mk [] [] [] [] [] [] [] [] [] []) []
      = convert (Catalogs.mk [] [] [] [] [] [] [] [] [] []) [] :=
  ⟨C6_determinism.1 ["1/22/20"] ["B", "A"] ["A", "B"] [SrcRow.mk "A" (fun _ => 1)] [] []
      (by decide),
    C6_determinism.2 _ _ [] [] rfl rfl⟩

/-! ## Characterisation of `convertRow` -/

theorem dlookup_mem {α : Type} :
    ∀ {d : List (String × α)} {k : String} {v : α}, dlookup k d = some v → (k, v) ∈ d := by
  intro d
  induction d with
  | nil => intro k v h; exact Option.noConfusion h
  | cons p ps ih =>
    intro k v h
    rw [dlookup_cons] at h
    by_cases hpk : (p.1 == k) = true
    · rw [if_pos hpk] at h
      have hk : p.1 = k := beq_iff_eq.mp hpk
      have hv : p.2 = v := Option.some.inj h
      rw [← hk, ← hv]
      exact List.mem_cons_self p ps
    · rw [if_neg hpk] at h
      exact List.mem_cons_of_mem _ (ih h)

theorem convertStates_eq {cat : Catalogs} {r a : CaseRecord}
    (h : convertStates cat r = some a) :
    ∃ eum enac eres,
      dlookup r.ENTIDAD_UM cat.ENTIDADES = some eum ∧
      dlookup r.ENTIDAD_NAC cat.ENTIDADES = some enac ∧
      dlookup r.ENTIDAD_RES cat.ENTIDADES = some eres ∧
      a = { r with
        MUNICIPIO_RES :=
          (dlookup (r.MUNICIPIO_RES ++ "-" ++ r.ENTIDAD_RES) cat.MUNICIPIOS).getD
            "NO ETIQUETADO",
        ENTIDAD_UM := eum, ENTIDAD_NAC := enac, ENTIDAD_RES := eres } := by
  unfold convertStates at h
  have hEUM : ∃ x, dlookup r.ENTIDAD_UM cat.ENTIDADES = some x := by
    cases hX : dlookup r.ENTIDAD_UM cat.ENTIDADES with
    | none => rw [hX] at h; exact Option.noConfusion h
    | some x => exact ⟨x, rfl⟩
  obtain ⟨eum, hEUM⟩ := hEUM
  rw [hEUM] at h
  simp only [Option.bind_eq_bind, Option.some_bind] at h
  have hENAC : ∃ x, dlookup r.ENTIDAD_NAC cat.ENTIDADES = some x := by
    cases hX : dlookup r.ENTIDAD_NAC cat.ENTIDADES with
    | none => rw [hX] at h; exact Option.noConfusion h
    | some x => exact ⟨x, rfl⟩
  obtain ⟨enac, hENAC⟩ := hENAC
  rw [hENAC] at h
  simp only [Option.bind_eq_bind, Option.some_bind] at h
  have hERES : ∃ x, dlookup r.ENTIDAD_RES cat.ENTIDADES = some x := by
    cases hX : dlookup r.ENTIDAD_RES cat.ENTIDADES with
    | none => rw [hX] at h; exact Option.noConfusion h
    | some x => exact ⟨x, rfl⟩
  obtain ⟨eres, hERES⟩ := hERES
  rw [hERES] at h
  simp only [Option.bind_eq_bind, Option.some_bind] at h
  exact ⟨eum, enac, eres, hEUM, hENAC, hERES, (Option.some.inj h).symm⟩

theorem convertCategorical_eq {cat : Catalogs} {r a : CaseRecord}
    (h : convertCategorical cat r = some a) :
    ∃ origen sector sexo tipo nacion rlab rant clasif,
      dlookup r.ORIGEN cat.ORIGEN = some origen ∧
      dlookup r.SECTOR cat.SECTOR = some sector ∧
      dlookup r.SEXO cat.SEXO = some sexo ∧
      dlookup r.TIPO_PACIENTE cat.TIPO_PACIENTE = some tipo ∧
      dlookup r.NACIONALIDAD cat.NACIONALIDAD = some nacion ∧
      dlookup r.RESULTADO_LAB cat.RESULTADO_LAB = some rlab ∧
      dlookup r.RESULTADO_ANTIGENO cat.RESULTADO_LAB = some rant ∧
      dlookup r.CLASIFICACION_FINAL cat.CLASIFICACION_FINAL = some clasif ∧
      a = { r with ORIGEN := origen, SECTOR := sector, SEXO := sexo,
                   TIPO_PACIENTE := tipo, NACIONALIDAD := nacion, RESULTADO_LAB := rlab,
                   RESULTADO_ANTIGENO := rant, CLASIFICACION_FINAL := clasif } := by
  unfold convertCategorical at h
  have hO : ∃ x, dlookup r.ORIGEN cat.ORIGEN = some x := by
    cases hX : dlookup r.ORIGEN cat.ORIGEN with
    | none => rw [hX] at h; exact Option.noConfusion h
    | some x => exact ⟨x, rfl⟩
  obtain ⟨origen, hO⟩ := hO
  rw [hO] at h
  simp only [Option.bind_eq_bind, Option.some_bind] at h
  have hS : ∃ x, dlookup r.SECTOR cat.SECTOR = some x := by
    cases hX : dlookup r.SECTOR cat.SECTOR with
    | none => rw [hX] at h; exact Option.noConfusion h
    | some x => exact ⟨x, rfl⟩
  obtain ⟨sector, hS⟩ := hS
  rw [hS] at h
  simp only [Option.bind_eq_bind, Option.some_bind] at h
  have hX2 : ∃ x, dlookup r.SEXO cat.SEXO = some x := by
    cases hX : dlookup r.SEXO cat.SEXO with
    | none => rw [hX] at h; exact Option.noConfusion h
    | some x => exact ⟨x, rfl⟩
  obtain ⟨sexo, hX2⟩ := hX2
  rw [hX2] at h
  simp only [Option.bind_eq_bind, Option.some_bind] at h
  have hT : ∃ x, dlookup r.TIPO_PACIENTE cat.TIPO_PACIENTE = some x := by
    cases hX : dlookup r.TIPO_PACIENTE cat.TIPO_PACIENTE with
    | none => rw [hX] at h; exact Option.noConfusion h
    | some x => exact ⟨x, rfl⟩
  obtain ⟨tipo, hT⟩ := hT
  rw [hT] at h
  simp only [Option.bind_eq_bind, Option.some_bind] at h
  have hN : ∃ x, dlookup r.NACIONALIDAD cat.NACIONALIDAD = some x := by
    cases hX : dlookup r.NACIONALIDAD cat.NACIONALIDAD with
    | none => rw [hX] at h; exact Option.noConfusion h
    | some x => exact ⟨x, rfl⟩
  obtain ⟨nacion, hN⟩ := hN
  rw [hN] at h
  simp only [Option.bind_eq_bind, Option.some_bind] at h
  have hL : ∃ x, dlookup r.RESULTADO_LAB cat.RESULTADO_LAB = some x := by
    cases hX : dlookup r.RESULTADO_LAB cat.RESULTADO_LAB with
    | none => rw [hX] at h; exact Option.noConfusion h
    | some x => exact ⟨x, rfl⟩
  obtain ⟨rlab, hL⟩ := hL
  rw [hL] at h
  simp only [Option.bind_eq_bind, Option.some_bind] at h
  have hA : ∃ x, dlookup r.RESULTADO_ANTIGENO cat.RESULTADO_LAB = some x := by
    cases hX : dlookup r.RESULTADO_ANTIGENO cat.RESULTADO_LAB with
    | none => rw [hX] at h; exact Option.noConfusion h
    | some x => exact ⟨x, rfl⟩
  obtain ⟨rant, hA⟩ := hA
  rw [hA] at h
  simp only [Option.bind_eq_bind, Option.some_bind] at h
  have hC : ∃ x, dlookup r.CLASIFICACION_FINAL cat.CLASIFICACION_FINAL = some x := by
    cases hX : dlookup r.CLASIFICACION_FINAL cat.CLASIFICACION_FINAL with
    | none => rw [hX] at h; exact Option.noConfusion h
    | some x => exact ⟨x, rfl⟩
  obtain ⟨clasif, hC⟩ := hC
  rw [hC] at h
  simp only [Option.bind_eq_bind, Option.some_bind] at h
  exact ⟨origen, sector, sexo, tipo, nacion, rlab, rant, clasif,
    hO, hS, hX2, hT, hN, hL, hA, hC, (Option.some.inj h).symm⟩

theorem convertYesNoA_eq {cat : Catalogs} {r a : CaseRecord}
    (h : convertYesNoA cat r = some a) :
    ∃ migrante intubado neumonia embarazo habla indigena tmlab tmant diabetes epoc,
      dlookup r.MIGRANTE cat.SI_NO = some migrante ∧
      dlookup r.INTUBADO cat.SI_NO = some intubado ∧
      dlookup r.NEUMONIA cat.SI_NO = some neumonia ∧
      dlookup r.EMBARAZO cat.SI_NO = some embarazo ∧
      dlookup r.HABLA_LENGUA_INDIG cat.SI_NO = some habla ∧
      dlookup r.INDIGENA cat.SI_NO = some indigena ∧
      dlookup r.TOMA_MUESTRA_LAB cat.SI_NO = some tmlab ∧
      dlookup r.TOMA_MUESTRA_ANTIGENO cat.SI_NO = some tmant ∧
      dlookup r.DIABETES cat.SI_NO = some diabetes ∧
      dlookup r.EPOC cat.SI_NO = some epoc ∧
      a = { r with
            MIGRANTE := migrante,
            INTUBADO := intubado,
            NEUMONIA := neumonia,
            EMBARAZO := embarazo,
            HABLA_LENGUA_INDIG := habla,
            INDIGENA := indigena,
            TOMA_MUESTRA_LAB := tmlab,
            TOMA_MUESTRA_ANTIGENO := tmant,
            DIABETES := diabetes,
            EPOC := epoc } := by
  unfold convertYesNoA at h
  have hv_migrante : ∃ x, dlookup r.MIGRANTE cat.SI_NO = some x := by
    cases hX : dlookup r.MIGRANTE cat.SI_NO with
    | none => rw [hX] at h; exact Option.noConfusion h
    | some x => exact ⟨x, rfl⟩
  obtain ⟨migrante, hv_migrante⟩ := hv_migrante
  rw [hv_migrante] at h
  simp only [Option.bind_eq_bind, Option.some_bind] at h
  have hv_intubado : ∃ x, dlookup r.INTUBADO cat.SI_NO = some x := by
    cases hX : dlookup r.INTUBADO cat.SI_NO with
    | none => rw [hX] at h; exact Option.noConfusion h
    | some x => exact ⟨x, rfl⟩
  obtain ⟨intubado, hv_intubado⟩ := hv_intubado
  rw [hv_intubado] at h
  simp only [Option.bind_eq_bind, Option.some_bind] at h
  have hv_neumonia : ∃ x, dlookup r.NEUMONIA cat.SI_NO = some x := by
    cases hX : dlookup r.NEUMONIA cat.SI_NO with
    | none => rw [hX] at h; exact Option.noConfusion h
    | some x => exact ⟨x, rfl⟩
  obtain ⟨neumonia, hv_neumonia⟩ := hv_neumonia
  rw [hv_neumonia] at h
  simp only [Option.bind_eq_bind, Option.some_bind] at h
  have hv_embarazo : ∃ x, dlookup r.EMBARAZO cat.SI_NO = some x := by
    cases hX : dlookup r.EMBARAZO cat.SI_NO with
    | none => rw [hX] at h; exact Option.noConfusion h
    | some x => exact ⟨x, rfl⟩
  obtain ⟨embarazo, hv_embarazo⟩ := hv_embarazo
  rw [hv_embarazo] at h
  simp only [Option.bind_eq_bind, Option.some_bind] at h
  have hv_habla : ∃ x, dlookup r.HABLA_LENGUA_INDIG cat.SI_NO = some x := by
    cases hX : dlookup r.HABLA_LENGUA_INDIG cat.SI_NO with
    | none => rw [hX] at h; exact Option.noConfusion h
    | some x => exact ⟨x, rfl⟩
  obtain ⟨habla, hv_habla⟩ := hv_habla
  rw [hv_habla] at h
  simp only [Option.bind_eq_bind, Option.some_bind] at h
  have hv_indigena : ∃ x, dlookup r.INDIGENA cat.SI_NO = some x := by
    cases hX : dlookup r.INDIGENA cat.SI_NO with
    | none => rw [hX] at h; exact Option.noConfusion h
    | some x => exact ⟨x, rfl⟩
  obtain ⟨indigena, hv_indigena⟩ := hv_indigena
  rw [hv_indigena] at h
  simp only [Option.bind_eq_bind, Option.some_bind] at h
  have hv_tmlab : ∃ x, dlookup r.TOMA_MUESTRA_LAB cat.SI_NO = some x := by
    cases hX : dlookup r.TOMA_MUESTRA_LAB cat.SI_NO with
    | none => rw [hX] at h; exact Option.noConfusion h
    | some x => exact ⟨x, rfl⟩
  obtain ⟨tmlab, hv_tmlab⟩ := hv_tmlab
  rw [hv_tmlab] at h
  simp only [Option.bind_eq_bind, Option.some_bind] at h
  have hv_tmant : ∃ x, dlookup r.TOMA_MUESTRA_ANTIGENO cat.SI_NO = some x := by
    cases hX : dlookup r.TOMA_MUESTRA_ANTIGENO cat.SI_NO with
    | none => rw [hX] at h; exact Option.noConfusion h
    | some x => exact ⟨x, rfl⟩
  obtain ⟨tmant, hv_tmant⟩ := hv_tmant
  rw [hv_tmant] at h
  simp only [Option.bind_eq_bind, Option.some_bind] at h
  have hv_diabetes : ∃ x, dlookup r.DIABETES cat.SI_NO = some x := by
    cases hX : dlookup r.DIABETES cat.SI_NO with
    | none => rw [hX] at h; exact Option.noConfusion h
    | some x => exact ⟨x, rfl⟩
  obtain ⟨diabetes, hv_diabetes⟩ := hv_diabetes
  rw [hv_diabetes] at h
  simp only [Option.bind_eq_bind, Option.some_bind] at h
  have hv_epoc : ∃ x, dlookup r.EPOC cat.SI_NO = some x := by
    cases hX : dlookup r.EPOC cat.SI_NO with
    | none => rw [hX] at h; exact Option.noConfusion h
    | some x => exact ⟨x, rfl⟩
  obtain ⟨epoc, hv_epoc⟩ := hv_epoc
  rw [hv_epoc] at h
  simp only [Option.bind_eq_bind, Option.some_bind] at h
  exact ⟨migrante, intubado, neumonia, embarazo, habla, indigena, tmlab, tmant, diabetes, epoc, hv_migrante, hv_intubado, hv_neumonia, hv_embarazo, hv_habla, hv_indigena, hv_tmlab, hv_tmant, hv_diabetes, hv_epoc, (Option.some.inj h).symm⟩

theorem convertYesNoB_eq {cat : Catalogs} {r a : CaseRecord}
    (h : convertYesNoB cat r = some a) :
    ∃ asma inmusupr hiperten otracom cardio obesidad renal tabaquismo otrocaso uci,
      dlookup r.ASMA cat.SI_NO = some asma ∧
      dlookup r.INMUSUPR cat.SI_NO = some inmusupr ∧
      dlookup r.HIPERTENSION cat.SI_NO = some hiperten ∧
      dlookup r.OTRA_COM cat.SI_NO = some otracom ∧
      dlookup r.CARDIOVASCULAR cat.SI_NO = some cardio ∧
      dlookup r.OBESIDAD cat.SI_NO = some obesidad ∧
      dlookup r.RENAL_CRONICA cat.SI_NO = some renal ∧
      dlookup r.TABAQUISMO cat.SI_NO = some tabaquismo ∧
      dlookup r.OTRO_CASO cat.SI_NO = some otrocaso ∧
      dlookup r.UCI cat.SI_NO = some uci ∧
      a = { r with
            ASMA := asma,
            INMUSUPR := inmusupr,
            HIPERTENSION := hiperten,
            OTRA_COM := otracom,
            CARDIOVASCULAR := cardio,
            OBESIDAD := obesidad,
            RENAL_CRONICA := renal,
            TABAQUISMO := tabaquismo,
            OTRO_CASO := otrocaso,
            UCI := uci } := by
  unfold convertYesNoB at h
  have hv_asma : ∃ x, dlookup r.ASMA cat.SI_NO = some x := by
    cases hX : dlookup r.ASMA cat.SI_NO with
    | none => rw [hX] at h; exact Option.noConfusion h
    | some x => exact ⟨x, rfl⟩
  obtain ⟨asma, hv_asma⟩ := hv_asma
  rw [hv_asma] at h
  simp only [Option.bind_eq_bind, Option.some_bind] at h
  have hv_inmusupr : ∃ x, dlookup r.INMUSUPR cat.SI_NO = some x := by
    cases hX : dlookup r.INMUSUPR cat.SI_NO with
    | none => rw [hX] at h; exact Option.noConfusion h
    | some x => exact ⟨x, rfl⟩
  obtain ⟨inmusupr, hv_inmusupr⟩ := hv_inmusupr
  rw [hv_inmusupr] at h
  simp only [Option.bind_eq_bind, Option.some_bind] at h
  have hv_hiperten : ∃ x, dlookup r.HIPERTENSION cat.SI_NO = some x := by
    cases hX : dlookup r.HIPERTENSION cat.SI_NO with
    | none => rw [hX] at h; exact Option.noConfusion h
    | some x => exact ⟨x, rfl⟩
  obtain ⟨hiperten, hv_hiperten⟩ := hv_hiperten
  rw [hv_hiperten] at h
  simp only [Option.bind_eq_bind, Option.some_bind] at h
  have hv_otracom : ∃ x, dlookup r.OTRA_COM cat.SI_NO = some x := by
    cases hX : dlookup r.OTRA_COM cat.SI_NO with
    | none => rw [hX] at h; exact Option.noConfusion h
    | some x => exact ⟨x, rfl⟩
  obtain ⟨otracom, hv_otracom⟩ := hv_otracom
  rw [hv_otracom] at h
  simp only [Option.bind_eq_bind, Option.some_bind] at h
  have hv_cardio : ∃ x, dlookup r.CARDIOVASCULAR cat.SI_NO = some x := by
    cases hX : dlookup r.CARDIOVASCULAR cat.SI_NO with
    | none => rw [hX] at h; exact Option.noConfusion h
    | some x => exact ⟨x, rfl⟩
  obtain ⟨cardio, hv_cardio⟩ := hv_cardio
  rw [hv_cardio] at h
  simp only [Option.bind_eq_bind, Option.some_bind] at h
  have hv_obesidad : ∃ x, dlookup r.OBESIDAD cat.SI_NO = some x := by
    cases hX : dlookup r.OBESIDAD cat.SI_NO with
    | none => rw [hX] at h; exact Option.noConfusion h
    | some x => exact ⟨x, rfl⟩
  obtain ⟨obesidad, hv_obesidad⟩ := hv_obesidad
  rw [hv_obesidad] at h
  simp only [Option.bind_eq_bind, Option.some_bind] at h
  have hv_renal : ∃ x, dlookup r.RENAL_CRONICA cat.SI_NO = some x := by
    cases hX : dlookup r.RENAL_CRONICA cat.SI_NO with
    | none => rw [hX] at h; exact Option.noConfusion h
    | some x => exact ⟨x, rfl⟩
  obtain ⟨renal, hv_renal⟩ := hv_renal
  rw [hv_renal] at h
  simp only [Option.bind_eq_bind, Option.some_bind] at h
  have hv_tabaquismo : ∃ x, dlookup r.TABAQUISMO cat.SI_NO = some x := by
    cases hX : dlookup r.TABAQUISMO cat.SI_NO with
    | none => rw [hX] at h; exact Option.noConfusion h
    | some x => exact ⟨x, rfl⟩
  obtain ⟨tabaquismo, hv_tabaquismo⟩ := hv_tabaquismo
  rw [hv_tabaquismo] at h
  simp only [Option.bind_eq_bind, Option.some_bind] at h
  have hv_otrocaso : ∃ x, dlookup r.OTRO_CASO cat.SI_NO = some x := by
    cases hX : dlookup r.OTRO_CASO cat.SI_NO with
    | none => rw [hX] at h; exact Option.noConfusion h
    | some x => exact ⟨x, rfl⟩
  obtain ⟨otrocaso, hv_otrocaso⟩ := hv_otrocaso
  rw [hv_otrocaso] at h
  simp only [Option.bind_eq_bind, Option.some_bind] at h
  have hv_uci : ∃ x, dlookup r.UCI cat.SI_NO = some x := by
    cases hX : dlookup r.UCI cat.SI_NO with
    | none => rw [hX] at h; exact Option.noConfusion h
    | some x => exact ⟨x, rfl⟩
  obtain ⟨uci, hv_uci⟩ := hv_uci
  rw [hv_uci] at h
  simp only [Option.bind_eq_bind, Option.some_bind] at h
  exact ⟨asma, inmusupr, hiperten, otracom, cardio, obesidad, renal, tabaquismo, otrocaso, uci, hv_asma, hv_inmusupr, hv_hiperten, hv_otracom, hv_cardio, hv_obesidad, hv_renal, hv_tabaquismo, hv_otrocaso, hv_uci, (Option.some.inj h).symm⟩

/-- Full characterisation of a successful `convertRow` run: every hard
coded field was found in its catalog and replaced by its label (so a code
absent from its catalog makes `convertRow` return `none`), while
`MUNICIPIO_RES` falls back to `"NO ETIQUETADO"`, `PAIS_ORIGEN` is only
compared against the literal `"99"`, and `PAIS_NACIONALIDAD` only passes
through the `FIXERS` loop. -/
theorem convertRow_char {cat : Catalogs} {r out : CaseRecord}
    (h : convertRow cat r = some out) :
    dlookup r.ENTIDAD_UM cat.ENTIDADES = some out.ENTIDAD_UM ∧
    dlookup r.ENTIDAD_NAC cat.ENTIDADES = some out.ENTIDAD_NAC ∧
    dlookup r.ENTIDAD_RES cat.ENTIDADES = some out.ENTIDAD_RES ∧
    dlookup r.ORIGEN cat.ORIGEN = some out.ORIGEN ∧
    dlookup r.SECTOR cat.SECTOR = some out.SECTOR ∧
    dlookup r.SEXO cat.SEXO = some out.SEXO ∧
    dlookup r.TIPO_PACIENTE cat.TIPO_PACIENTE = some out.TIPO_PACIENTE ∧
    dlookup r.NACIONALIDAD cat.NACIONALIDAD = some out.NACIONALIDAD ∧
    dlookup r.RESULTADO_LAB cat.RESULTADO_LAB = some out.RESULTADO_LAB ∧
    dlookup r.RESULTADO_ANTIGENO cat.RESULTADO_LAB = some out.RESULTADO_ANTIGENO ∧
    dlookup r.CLASIFICACION_FINAL cat.CLASIFICACION_FINAL = some out.CLASIFICACION_FINAL ∧
    dlookup r.MIGRANTE cat.SI_NO = some out.MIGRANTE ∧
    dlookup r.INTUBADO cat.SI_NO = some out.INTUBADO ∧
    dlookup r.NEUMONIA cat.SI_NO = some out.NEUMONIA ∧
    dlookup r.EMBARAZO cat.SI_NO = some out.EMBARAZO ∧
    dlookup r.HABLA_LENGUA_INDIG cat.SI_NO = some out.HABLA_LENGUA_INDIG ∧
    dlookup r.INDIGENA cat.SI_NO = some out.INDIGENA ∧
    dlookup r.TOMA_MUESTRA_LAB cat.SI_NO = some out.TOMA_MUESTRA_LAB ∧
    dlookup r.TOMA_MUESTRA_ANTIGENO cat.SI_NO = some out.TOMA_MUESTRA_ANTIGENO ∧
    dlookup r.DIABETES cat.SI_NO = some out.DIABETES ∧
    dlookup r.EPOC cat.SI_NO = some out.EPOC ∧
    dlookup r.ASMA cat.SI_NO = some out.ASMA ∧
    dlookup r.INMUSUPR cat.SI_NO = some out.INMUSUPR ∧
    dlookup r.HIPERTENSION cat.SI_NO = some out.HIPERTENSION ∧
    dlookup r.OTRA_COM cat.SI_NO = some out.OTRA_COM ∧
    dlookup r.CARDIOVASCULAR cat.SI_NO = some out.CARDIOVASCULAR ∧
    dlookup r.OBESIDAD cat.SI_NO = some out.OBESIDAD ∧
    dlookup r.RENAL_CRONICA cat.SI_NO = some out.RENAL_CRONICA ∧
    dlookup r.TABAQUISMO cat.SI_NO = some out.TABAQUISMO ∧
    dlookup r.OTRO_CASO cat.SI_NO = some out.OTRO_CASO ∧
    dlookup r.UCI cat.SI_NO = some out.UCI ∧
    out.MUNICIPIO_RES = (dlookup (r.MUNICIPIO_RES ++ "-" ++ r.ENTIDAD_RES)
      cat.MUNICIPIOS).getD "NO ETIQUETADO" ∧
    out.PAIS_ORIGEN = (if r.PAIS_ORIGEN == "99" then "NO ESPECIFICADO"
      else r.PAIS_ORIGEN) ∧
    out.PAIS_NACIONALIDAD = applyFixers r.PAIS_NACIONALIDAD := by
  unfold convertRow at h
  have hA : ∃ x, convertStates cat r = some x := by
    cases hX : convertStates cat r with
    | none => rw [hX] at h; exact Option.noConfusion h
    | some x => exact ⟨x, rfl⟩
  obtain ⟨a, hA⟩ := hA
  rw [hA] at h
  simp only [Option.bind_eq_bind, Option.some_bind] at h
  have hB : ∃ x, convertCategorical cat a = some x := by
    cases hX : convertCategorical cat a with
    | none => rw [hX] at h; exact Option.noConfusion h
    | some x => exact ⟨x, rfl⟩
  obtain ⟨b, hB⟩ := hB
  rw [hB] at h
  simp only [Option.bind_eq_bind, Option.some_bind] at h
  have hC : ∃ x, convertYesNoA cat b = some x := by
    cases hX : convertYesNoA cat b with
    | none => rw [hX] at h; exact Option.noConfusion h
    | some x => exact ⟨x, rfl⟩
  obtain ⟨c, hC⟩ := hC
  rw [hC] at h
  simp only [Option.bind_eq_bind, Option.some_bind] at h
  have hD : ∃ x, convertYesNoB cat c = some x := by
    cases hX : convertYesNoB cat c with
    | none => rw [hX] at h; exact Option.noConfusion h
    | some x => exact ⟨x, rfl⟩
  obtain ⟨d, hD⟩ := hD
  rw [hD] at h
  simp only [Option.bind_eq_bind, Option.some_bind] at h
  have hout : out = convertPais d := (Option.some.inj h).symm
  obtain ⟨eum, enac, eres, hEUM, hENAC, hERES, ha⟩ := convertStates_eq hA
  obtain ⟨origen, sector, sexo, tipo, nacion, rlab, rant, clasif,
    hO, hS, hX2, hT, hN, hL, hAa, hCl, hb⟩ := convertCategorical_eq hB
  obtain ⟨migrante, intubado, neumonia, embarazo, habla, indigena, tmlab, tmant, diabetes,
    epoc, q1, q2, q3, q4, q5, q6, q7, q8, q9, q10, hc⟩ := convertYesNoA_eq hC
  obtain ⟨asma, inmusupr, hiperten, otracom, cardio, obesidad, renal, tabaquismo, otrocaso,
    uci, w1, w2, w3, w4, w5, w6, w7, w8, w9, w10, hd⟩ := convertYesNoB_eq hD
  subst ha
  subst hb
  subst hc
  subst hd
  subst hout
  exact ⟨hEUM, hENAC, hERES, hO, hS, hX2, hT, hN, hL, hAa, hCl,
    q1, q2, q3, q4, q5, q6, q7, q8, q9, q10,
    w1, w2, w3, w4, w5, w6, w7, w8, w9, w10, rfl, rfl, rfl⟩

/-! ## String-repair lemmas -/

theorem replaceFuel_id {pat rep : List Char} :
    ∀ (fuel : Nat) (l : List Char), hasPat pat l = false → replaceFuel pat rep fuel l = l
  | fuel, [], _ => by cases fuel <;> rfl
  | 0, c :: cs, _ => rfl
  | fuel + 1, c :: cs, h => by
    unfold hasPat at h
    rw [Bool.or_eq_false_iff] at h
    unfold replaceFuel
    rw [if_neg (by simp [h.1])]
    rw [replaceFuel_id fuel cs h.2]

theorem pyReplace_id {s pat rep : String} (h : hasPat pat.data s.data = false) :
    pyReplace s pat rep = s := by
  unfold pyReplace
  rw [replaceFuel_id _ _ h]

theorem dropWhile_idem {p : Char → Bool} :
    ∀ l : List Char, List.dropWhile p (List.dropWhile p l) = List.dropWhile p l
  | [] => rfl
  | c :: cs => by
    rw [List.dropWhile_cons]
    by_cases hc : p c = true
    · rw [if_pos hc]
      exact dropWhile_idem cs
    · rw [if_neg hc, List.dropWhile_cons, if_neg hc]

theorem dropWhile_of_isPrefix {p : Char → Bool} {z w : List Char}
    (hz : List.dropWhile p z = z) (hw : w <+: z) : List.dropWhile p w = w := by
  cases w with
  | nil => rfl
  | cons c ws =>
    obtain ⟨t, ht⟩ := hw
    have hz2 : List.dropWhile p (c :: (ws ++ t)) = c :: (ws ++ t) := by
      rw [show c :: (ws ++ t) = (c :: ws) ++ t from rfl, ht]
      exact hz
    rw [List.dropWhile_cons] at hz2
    by_cases hc : p c = true
    · rw [if_pos hc] at hz2
      have hle := (List.dropWhile_suffix (l := ws ++ t) p).length_le
      have hlen := congrArg List.length hz2
      simp only [List.length_cons] at hlen
      omega
    · rw [List.dropWhile_cons, if_neg hc]

theorem trimL_idem (l : List Char) : trimL (trimL l) = trimL l := by
  have hidem : ∀ x : List Char,
      List.dropWhile Char.isWhitespace (List.dropWhile Char.isWhitespace x)
        = List.dropWhile Char.isWhitespace x := dropWhile_idem
  unfold trimL
  generalize hu : List.dropWhile Char.isWhitespace l = u
  have hz : List.dropWhile Char.isWhitespace u = u := by
    rw [← hu]
    exact hidem l
  generalize hv : List.dropWhile Char.isWhitespace u.reverse = v
  have hsuf : v <:+ u.reverse := by
    rw [← hv]
    exact List.dropWhile_suffix _
  have hpre : v.reverse <+: u := by
    have h := List.reverse_prefix.mpr hsuf
    rwa [List.reverse_reverse] at h
  have h1 : List.dropWhile Char.isWhitespace v.reverse = v.reverse :=
    dropWhile_of_isPrefix hz hpre
  rw [h1, List.reverse_reverse]
  have h2 : List.dropWhile Char.isWhitespace v = v := by
    rw [← hv]
    exact hidem _
  rw [h2]

theorem pyStrip_idem (s : String) : pyStrip (pyStrip s) = pyStrip s := by
  unfold pyStrip
  exact congrArg (fun l => (⟨l⟩ : String)) (trimL_idem s.data)

theorem applyFixers_strip (s : String) : pyStrip (applyFixers s) = applyFixers s := by
  have h : applyFixers s = pyStrip (pyReplace
      (pyStrip (pyReplace (pyStrip (pyReplace (pyStrip (pyReplace (pyStrip (pyReplace
        (pyStrip (pyReplace s "Ã±" "ñ")) "Ã¡" "á")) "Ã©" "é")) "Ã³" "ó")) "Ãº" "ú"))
      "Ã" "í") := rfl
  rw [h, pyStrip_idem]

/-- A string containing none of the `FIXERS` patterns and already free of
edge whitespace passes through the repair loop unchanged. -/
theorem applyFixers_id {s : String} (h : ∀ kv ∈ FIXERS, hasPat kv.1.data s.data = false)
    (hstrip : pyStrip s = s) : applyFixers s = s := by
  have h1 := h ("Ã±", "ñ") (by simp [FIXERS])
  have h2 := h ("Ã¡", "á") (by simp [FIXERS])
  have h3 := h ("Ã©", "é") (by simp [FIXERS])
  have h4 := h ("Ã³", "ó") (by simp [FIXERS])
  have h5 := h ("Ãº", "ú") (by simp [FIXERS])
  have h6 := h ("Ã", "í") (by simp [FIXERS])
  show pyStrip (pyReplace
      (pyStrip (pyReplace (pyStrip (pyReplace (pyStrip (pyReplace (pyStrip (pyReplace
        (pyStrip (pyReplace s "Ã±" "ñ")) "Ã¡" "á")) "Ã©" "é")) "Ã³" "ó")) "Ãº" "ú"))
      "Ã" "í") = s
  rw [pyReplace_id h1, hstrip, pyReplace_id h2, hstrip, pyReplace_id h3, hstrip,
    pyReplace_id h4, hstrip, pyReplace_id h5, hstrip, pyReplace_id h6, hstrip]

/-! ## Catalog-loader lemmas -/

theorem map_congr_mem {α β : Type} {l : List α} {f g : α → β}
    (h : ∀ x ∈ l, f x = g x) : l.map f = l.map g := by
  induction l with
  | nil => rfl
  | cons x xs ih =>
    rw [List.map_cons, List.map_cons, h x (by simp), ih (fun y hy => h y (by simp [hy]))]

theorem pyInsert_keys_mono {α : Type} {d : List (String × α)} {k x : String} {v : α}
    (h : x ∈ d.map Prod.fst) : x ∈ (pyInsert d k v).map Prod.fst := by
  unfold pyInsert
  split
  · rw [List.map_map]
    have hcg : d.map (Prod.fst ∘ fun p => if (p.1 == k) = true then (k, v) else p)
        = d.map Prod.fst := by
      refine map_congr_mem (fun p _ => ?_)
      by_cases hpk : (p.1 == k) = true
      · show (if (p.1 == k) = true then (k, v) else p).1 = p.1
        rw [if_pos hpk]
        exact (beq_iff_eq.mp hpk).symm
      · show (if (p.1 == k) = true then (k, v) else p).1 = p.1
        rw [if_neg hpk]
    rw [hcg]
    exact h
  · rw [List.map_append, List.mem_append]
    exact Or.inl h

theorem pyInsert_key_self {α : Type} (d : List (String × α)) (k : String) (v : α) :
    k ∈ (pyInsert d k v).map Prod.fst := by
  unfold pyInsert
  split
  · rename_i hany
    rcases List.any_eq_true.mp hany with ⟨p, hp, hpk⟩
    rw [List.map_map]
    refine List.mem_map.mpr ⟨p, hp, ?_⟩
    show (if (p.1 == k) = true then (k, v) else p).1 = k
    rw [if_pos hpk]
  · rw [List.map_append, List.mem_append]
    right
    simp

theorem foldl_pyInsert_keys {α : Type} :
    ∀ (items acc : List (String × α)) (x : String),
      (x ∈ acc.map Prod.fst ∨ ∃ kv ∈ items, x = kv.1) →
      x ∈ (items.foldl (fun d kv => pyInsert d kv.1 kv.2) acc).map Prod.fst
  | [], acc, x, h => by
    rcases h with h | ⟨kv, hkv, _⟩
    · exact h
    · simp at hkv
  | kv0 :: items, acc, x, h => by
    rw [List.foldl_cons]
    refine foldl_pyInsert_keys items (pyInsert acc kv0.1 kv0.2) x ?_
    rcases h with h | ⟨kv, hkv, he⟩
    · exact Or.inl (pyInsert_keys_mono h)
    · rcases List.mem_cons.mp hkv with hh | hh
      · subst hh
        exact Or.inl (he ▸ pyInsert_key_self acc kv.1 kv.2)
      · exact Or.inr ⟨kv, hh, he⟩

theorem loadLab_values : ∀ (rows : List (List PyVal)) (acc d : List (String × String)),
    loadLab rows acc = some d → (∀ p ∈ acc, pyStrip p.2 = p.2) →
    ∀ p ∈ d, pyStrip p.2 = p.2
  | [], acc, d, h, hacc, p, hp => by
    injection h with h
    exact hacc p (h ▸ hp)
  | r :: rs, acc, d, h, hacc, p, hp => by
    unfold loadLab at h
    by_cases hlen : r.length > 0
    · rw [if_pos hlen] at h
      cases hg0 : r.get? 0 with
      | none => rw [hg0] at h; exact Option.noConfusion h
      | some c0 =>
        cases hg1 : r.get? 1 with
        | none => rw [hg0, hg1] at h; exact Option.noConfusion h
        | some c1 =>
          rw [hg0, hg1] at h
          refine loadLab_values rs _ d h ?_ p hp
          intro q hq
          rcases mem_pyInsert hq with he | hin
          · rw [he]
            exact pyStrip_idem _
          · exact hacc q hin
    · rw [if_neg hlen] at h
      exact loadLab_values rs acc d h hacc p hp

theorem loadClasificacion_mem :
    ∀ (rows : List (PyVal × PyVal)) (acc d : List (String × String)),
      loadClasificacion rows acc = some d → ∀ p ∈ d, p ∈ acc ∨
        ∃ c0 c1, (c0, some c1) ∈ rows ∧ truthy c0 = true ∧ p = (pyStr c0, applyFixers c1)
  | [], acc, d, h, p, hp => by
    injection h with h
    exact Or.inl (h ▸ hp)
  | (c0, c1) :: rs, acc, d, h, p, hp => by
    unfold loadClasificacion at h
    by_cases ht : truthy c0 = true
    · rw [if_pos ht] at h
      cases c1 with
      | none => exact Option.noConfusion h
      | some s =>
        have ih := loadClasificacion_mem rs _ d h p hp
        rcases ih with hin | ⟨c02, c12, hmem, ht2, hpe⟩
        · rcases mem_pyInsert hin with he | hin2
          · exact Or.inr ⟨c0, s, by simp, ht, he⟩
          · exact Or.inl hin2
        · exact Or.inr ⟨c02, c12, by simp [hmem], ht2, hpe⟩
    · rw [if_neg ht] at h
      have ih := loadClasificacion_mem rs acc d h p hp
      rcases ih with hin | ⟨c02, c12, hmem, ht2, hpe⟩
      · exact Or.inl hin
      · exact Or.inr ⟨c02, c12, by simp [hmem], ht2, hpe⟩

theorem loadClasificacion_skip_none (x : PyVal) (rs : List (PyVal × PyVal))
    (acc : List (String × String)) :
    loadClasificacion ((none, x) :: rs) acc = loadClasificacion rs acc := by
  simp [loadClasificacion, truthy]

theorem loadClasificacion_skip_empty (x : PyVal) (rs : List (PyVal × PyVal))
    (acc : List (String × String)) :
    loadClasificacion ((some "", x) :: rs) acc = loadClasificacion rs acc := by
  simp [loadClasificacion, truthy]

/-! ## Claim C4 -/

/-- C4 (amended): on every record that `convert` emits, each of the 31
hard-lookup coded fields was found in its catalog — so a code absent from
one of those catalogs aborts the run with a `KeyError` before the record
is emitted — but there are two exceptions, not one: `MUNICIPIO_RES` falls
back to the literal `"NO ETIQUETADO"` when its composite key is absent,
and `PAIS_ORIGEN` is never resolved against any catalog: the raw value
`"99"` is replaced by `"NO ESPECIFICADO"` and every other value passes
through unchanged. -/
theorem C4_lookup_failure_policy (cat : Catalogs) (r out : CaseRecord)
    (h : convertRow cat r = some out) :
    dlookup r.ENTIDAD_UM cat.ENTIDADES = some out.ENTIDAD_UM ∧
    dlookup r.ENTIDAD_NAC cat.ENTIDADES = some out.ENTIDAD_NAC ∧
    dlookup r.ENTIDAD_RES cat.ENTIDADES = some out.ENTIDAD_RES ∧
    dlookup r.ORIGEN cat.ORIGEN = some out.ORIGEN ∧
    dlookup r.SECTOR cat.SECTOR = some out.SECTOR ∧
    dlookup r.SEXO cat.SEXO = some out.SEXO ∧
    dlookup r.TIPO_PACIENTE cat.TIPO_PACIENTE = some out.TIPO_PACIENTE ∧
    dlookup r.NACIONALIDAD cat.NACIONALIDAD = some out.NACIONALIDAD ∧
    dlookup r.RESULTADO_LAB cat.RESULTADO_LAB = some out.RESULTADO_LAB ∧
    dlookup r.RESULTADO_ANTIGENO cat.RESULTADO_LAB = some out.RESULTADO_ANTIGENO ∧
    dlookup r.CLASIFICACION_FINAL cat.CLASIFICACION_FINAL = some out.CLASIFICACION_FINAL ∧
    dlookup r.MIGRANTE cat.SI_NO = some out.MIGRANTE ∧
    dlookup r.INTUBADO cat.SI_NO = some out.INTUBADO ∧
    dlookup r.NEUMONIA cat.SI_NO = some out.NEUMONIA ∧
    dlookup r.EMBARAZO cat.SI_NO = some out.EMBARAZO ∧
    dlookup r.HABLA_LENGUA_INDIG cat.SI_NO = some out.HABLA_LENGUA_INDIG ∧
    dlookup r.INDIGENA cat.SI_NO = some out.INDIGENA ∧
    dlookup r.TOMA_MUESTRA_LAB cat.SI_NO = some out.TOMA_MUESTRA_LAB ∧
    dlookup r.TOMA_MUESTRA_ANTIGENO cat.SI_NO = some out.TOMA_MUESTRA_ANTIGENO ∧
    dlookup r.DIABETES cat.SI_NO = some out.DIABETES ∧
    dlookup r.EPOC cat.SI_NO = some out.EPOC ∧
    dlookup r.ASMA cat.SI_NO = some out.ASMA ∧
    dlookup r.INMUSUPR cat.SI_NO = some out.INMUSUPR ∧
    dlookup r.HIPERTENSION cat.SI_NO = some out.HIPERTENSION ∧
    dlookup r.OTRA_COM cat.SI_NO = some out.OTRA_COM ∧
    dlookup r.CARDIOVASCULAR cat.SI_NO = some out.CARDIOVASCULAR ∧
    dlookup r.OBESIDAD cat.SI_NO = some out.OBESIDAD ∧
    dlookup r.RENAL_CRONICA cat.SI_NO = some out.RENAL_CRONICA ∧
    dlookup r.TABAQUISMO cat.SI_NO = some out.TABAQUISMO ∧
    dlookup r.OTRO_CASO cat.SI_NO = some out.OTRO_CASO ∧
    dlookup r.UCI cat.SI_NO = some out.UCI ∧
    out.MUNICIPIO_RES = (dlookup (r.MUNICIPIO_RES ++ "-" ++ r.ENTIDAD_RES)
      cat.MUNICIPIOS).getD "NO ETIQUETADO" ∧
    out.PAIS_ORIGEN = (if r.PAIS_ORIGEN == "99" then "NO ESPECIFICADO"
      else r.PAIS_ORIGEN) ∧
    out.PAIS_NACIONALIDAD = applyFixers r.PAIS_NACIONALIDAD :=
  convertRow_char h

/-- C4 counterexample: a record whose municipality code is absent from the
municipality catalog does not abort the run — `convertRow` succeeds and
stores the fallback label, contradicting the claim that the only
non-aborting exception is `PAIS_ORIGEN = "99"`. -/
theorem C4_counterexample :
    (convertRow sampleCatalogs sampleRecordNoMun).isSome = true ∧
    (convertRow sampleCatalogs sampleRecordNoMun).map CaseRecord.MUNICIPIO_RES
      = some "NO ETIQUETADO" := by decide

/-- C4 witness: the amended statement evaluated on a concrete catalog set
and record. -/
theorem C4_witness :
    convertRow sampleCatalogs sampleRecord = some sampleOut ∧
    (
    dlookup sampleRecord.ENTIDAD_UM sampleCatalogs.ENTIDADES = some sampleOut.ENTIDAD_UM ∧
    dlookup sampleRecord.ENTIDAD_NAC sampleCatalogs.ENTIDADES = some sampleOut.ENTIDAD_NAC ∧
    dlookup sampleRecord.ENTIDAD_RES sampleCatalogs.ENTIDADES = some sampleOut.ENTIDAD_RES ∧
    dlookup sampleRecord.ORIGEN sampleCatalogs.ORIGEN = some sampleOut.ORIGEN ∧
    dlookup sampleRecord.SECTOR sampleCatalogs.SECTOR = some sampleOut.SECTOR ∧
    dlookup sampleRecord.SEXO sampleCatalogs.SEXO = some sampleOut.SEXO ∧
    dlookup sampleRecord.TIPO_PACIENTE sampleCatalogs.TIPO_PACIENTE = some sampleOut.TIPO_PACIENTE ∧
    dlookup sampleRecord.NACIONALIDAD sampleCatalogs.NACIONALIDAD = some sampleOut.NACIONALIDAD ∧
    dlookup sampleRecord.RESULTADO_LAB sampleCatalogs.RESULTADO_LAB = some sampleOut.RESULTADO_LAB ∧
    dlookup sampleRecord.RESULTADO_ANTIGENO sampleCatalogs.RESULTADO_LAB = some sampleOut.RESULTADO_ANTIGENO ∧
    dlookup sampleRecord.CLASIFICACION_FINAL sampleCatalogs.CLASIFICACION_FINAL = some sampleOut.CLASIFICACION_FINAL ∧
    dlookup sampleRecord.MIGRANTE sampleCatalogs.SI_NO = some sampleOut.MIGRANTE ∧
    dlookup sampleRecord.INTUBADO sampleCatalogs.SI_NO = some sampleOut.INTUBADO ∧
    dlookup sampleRecord.NEUMONIA sampleCatalogs.SI_NO = some sampleOut.NEUMONIA ∧
    dlookup sampleRecord.EMBARAZO sampleCatalogs.SI_NO = some sampleOut.EMBARAZO ∧
    dlookup sampleRecord.HABLA_LENGUA_INDIG sampleCatalogs.SI_NO = some sampleOut.HABLA_LENGUA_INDIG ∧
    dlookup sampleRecord.INDIGENA sampleCatalogs.SI_NO = some sampleOut.INDIGENA ∧
    dlookup sampleRecord.TOMA_MUESTRA_LAB sampleCatalogs.SI_NO = some sampleOut.TOMA_MUESTRA_LAB ∧
    dlookup sampleRecord.TOMA_MUESTRA_ANTIGENO sampleCatalogs.SI_NO = some sampleOut.TOMA_MUESTRA_ANTIGENO ∧
    dlookup sampleRecord.DIABETES sampleCatalogs.SI_NO = some sampleOut.DIABETES ∧
    dlookup sampleRecord.EPOC sampleCatalogs.SI_NO = some sampleOut.EPOC ∧
    dlookup sampleRecord.ASMA sampleCatalogs.SI_NO = some sampleOut.ASMA ∧
    dlookup sampleRecord.INMUSUPR sampleCatalogs.SI_NO = some sampleOut.INMUSUPR ∧
    dlookup sampleRecord.HIPERTENSION sampleCatalogs.SI_NO = some sampleOut.HIPERTENSION ∧
    dlookup sampleRecord.OTRA_COM sampleCatalogs.SI_NO = some sampleOut.OTRA_COM ∧
    dlookup sampleRecord.CARDIOVASCULAR sampleCatalogs.SI_NO = some sampleOut.CARDIOVASCULAR ∧
    dlookup sampleRecord.OBESIDAD sampleCatalogs.SI_NO = some sampleOut.OBESIDAD ∧
    dlookup sampleRecord.RENAL_CRONICA sampleCatalogs.SI_NO = some sampleOut.RENAL_CRONICA ∧
    dlookup sampleRecord.TABAQUISMO sampleCatalogs.SI_NO = some sampleOut.TABAQUISMO ∧
    dlookup sampleRecord.OTRO_CASO sampleCatalogs.SI_NO = some sampleOut.OTRO_CASO ∧
    dlookup sampleRecord.UCI sampleCatalogs.SI_NO = some sampleOut.UCI ∧
    sampleOut.MUNICIPIO_RES = (dlookup (sampleRecord.MUNICIPIO_RES ++ "-" ++ sampleRecord.ENTIDAD_RES)
      sampleCatalogs.MUNICIPIOS).getD "NO ETIQUETADO" ∧
    sampleOut.PAIS_ORIGEN = (if sampleRecord.PAIS_ORIGEN == "99" then "NO ESPECIFICADO"
      else sampleRecord.PAIS_ORIGEN) ∧
    sampleOut.PAIS_NACIONALIDAD = applyFixers sampleRecord.PAIS_NACIONALIDAD) :=
  ⟨by decide, C4_lookup_failure_policy sampleCatalogs sampleRecord sampleOut (by decide)⟩

/-! ## Claim C5 -/

/-- C5 (amended): the municipality of residence is resolved before any
state field is overwritten, from the raw codes — but the composite key is
the raw municipality code followed by the raw state code (`"002-09"`),
not the state code followed by the municipality code; only afterwards are
the three state code fields replaced by their labels. -/
theorem C5_municipality_before_states (cat : Catalogs) (r out : CaseRecord)
    (h : convertRow cat r = some out) :
    out.MUNICIPIO_RES = (dlookup (r.MUNICIPIO_RES ++ "-" ++ r.ENTIDAD_RES)
      cat.MUNICIPIOS).getD "NO ETIQUETADO" ∧
    dlookup r.ENTIDAD_RES cat.ENTIDADES = some out.ENTIDAD_RES ∧
    dlookup r.ENTIDAD_UM cat.ENTIDADES = some out.ENTIDAD_UM ∧
    dlookup r.ENTIDAD_NAC cat.ENTIDADES = some out.ENTIDAD_NAC := by
  obtain ⟨h1, h2, h3, _, _, _, _, _, _, _, _, _, _, _, _, _, _, _, _, _, _, _, _, _, _,
    _, _, _, _, _, _, hmun, _, _⟩ := convertRow_char h
  exact ⟨hmun, h3, h1, h2⟩

/-- C5 counterexample: when the municipality catalog is keyed the way the
claim describes (state code first, `"09-002"`), `convertRow` does not find
the entry — the composite key it actually builds is `"002-09"` — so the
resolved municipality is the fallback label, not `"AZCAPOTZALCO"`. -/
theorem C5_counterexample :
    dlookup "09-002" sampleCatalogsStateFirst.MUNICIPIOS = some "AZCAPOTZALCO" ∧
    (convertRow sampleCatalogsStateFirst sampleRecord).map CaseRecord.MUNICIPIO_RES
      = some "NO ETIQUETADO" := by decide

/-- C5 witness: with the loader-shaped key `"002-09"` present, the raw
codes `"002"` and `"09"` resolve to the municipality label before the
state fields are replaced. -/
theorem C5_witness :
    convertRow sampleCatalogs sampleRecord = some sampleOut ∧
    (sampleOut.MUNICIPIO_RES = (dlookup (sampleRecord.MUNICIPIO_RES ++ "-" ++
        sampleRecord.ENTIDAD_RES) sampleCatalogs.MUNICIPIOS).getD "NO ETIQUETADO" ∧
      dlookup sampleRecord.ENTIDAD_RES sampleCatalogs.ENTIDADES
        = some sampleOut.ENTIDAD_RES ∧
      dlookup sampleRecord.ENTIDAD_UM sampleCatalogs.ENTIDADES
        = some sampleOut.ENTIDAD_UM ∧
      dlookup sampleRecord.ENTIDAD_NAC sampleCatalogs.ENTIDADES
        = some sampleOut.ENTIDAD_NAC) :=
  ⟨by decide, C5_municipality_before_states sampleCatalogs sampleRecord sampleOut (by decide)⟩

/-! ## Claim C7 -/

/-- C7 (amended): encoding repair is total and applied via `FIXERS` to the
final-classification labels and to `PAIS_NACIONALIDAD` of every record;
the mojibake for "México" is repaired to "México"; and a string containing
no covered pattern (and no edge whitespace) passes through unchanged —
but a corrupted sequence may still be altered when it overlaps a covered
pattern, because `"Ã"` alone is in the table. -/
theorem C7_encoding_repair :
    (∀ (cat : Catalogs) (r out : CaseRecord), convertRow cat r = some out →
      out.PAIS_NACIONALIDAD = applyFixers r.PAIS_NACIONALIDAD) ∧
    (∀ (rows : List (PyVal × PyVal)) (d : List (String × String)),
      loadClasificacion rows [] = some d → ∀ p ∈ d,
        ∃ c0 c1, (c0, some c1) ∈ rows ∧ truthy c0 = true ∧ p = (pyStr c0, applyFixers c1)) ∧
    applyFixers "MÃ©xico" = "México" ∧
    (∀ s : String, (∀ kv ∈ FIXERS, hasPat kv.1.data s.data = false) → pyStrip s = s →
      applyFixers s = s) := by
  refine ⟨?_, ?_, by decide, fun s h hs => applyFixers_id h hs⟩
  · intro cat r out h
    obtain ⟨_, _, _, _, _, _, _, _, _, _, _, _, _, _, _, _, _, _, _, _, _, _, _, _, _,
      _, _, _, _, _, _, _, _, hpn⟩ := convertRow_char h
    exact hpn
  · intro rows d h p hp
    rcases loadClasificacion_mem rows [] d h p hp with hin | hx
    · simp at hin
    · exact hx

/-- C7 counterexample: `"Ã¼"` (the mojibake for "ü") is not covered by the
table, yet it is not left unchanged: the covered single-character pattern
`"Ã"` fires inside it and turns `"MÃ¼nchen"` into `"Mí¼nchen"`. -/
theorem C7_counterexample :
    (∀ kv ∈ FIXERS, ¬ kv.1 = "Ã¼") ∧
    applyFixers "MÃ¼nchen" = "Mí¼nchen" ∧
    ¬ ("Mí¼nchen" : String) = "MÃ¼nchen" := by decide

/-- C7 witness: the amended statement evaluated concretely — a record
nationality text is repaired, a classification label is repaired by the
loader, and a pattern-free string passes through untouched. -/
theorem C7_witness :
    (sampleOut.PAIS_NACIONALIDAD = applyFixers sampleRecord.PAIS_NACIONALIDAD) ∧
    (∃ c0 c1, (c0, some c1) ∈ [((some "7" : PyVal), (some "MÃ©xico" : PyVal))] ∧
      truthy c0 = true ∧
      (("7", "México") : String × String) = (pyStr c0, applyFixers c1)) ∧
    applyFixers "Â°" = "Â°" := by
  refine ⟨C7_encoding_repair.1 sampleCatalogs sampleRecord sampleOut (by decide), ?_, ?_⟩
  · exact C7_encoding_repair.2.1 [((some "7" : PyVal), (some "MÃ©xico" : PyVal))]
      [("7", "México")] (by decide) ("7", "México") (by decide)
  · exact C7_encoding_repair.2.2.2 "Â°" (by decide) (by decide)

/-! ## Claim C8 -/

/-- C8 (amended): every stored catalog label is whitespace-trimmed, but
only the final-classification sheet skips rows with an empty or `None`
code (and the lab-result sheet skips only zero-length rows); a plain sheet
skips nothing — a row is inserted even when its code cell is `None`,
keyed by the stringification `"None"`. -/
theorem C8_loader_trim_and_skip :
    (∀ (rows : List (PyVal × PyVal)) (p : String × String), p ∈ loadSimple rows →
      pyStrip p.2 = p.2) ∧
    (∀ (rows : List (PyVal × PyVal × PyVal)) (p : String × String),
      p ∈ loadMunicipios rows → pyStrip p.2 = p.2) ∧
    (∀ (rows : List (List PyVal)) (d : List (String × String)), loadLab rows [] = some d →
      ∀ p ∈ d, pyStrip p.2 = p.2) ∧
    (∀ (rows : List (PyVal × PyVal)) (d : List (String × String)),
      loadClasificacion rows [] = some d → ∀ p ∈ d, pyStrip p.2 = p.2) ∧
    (∀ (rows : List (PyVal × PyVal)) (c0 c1 : PyVal), (c0, c1) ∈ rows →
      pyStr c0 ∈ (loadSimple rows).map Prod.fst) ∧
    (∀ (x : PyVal) (rs : List (PyVal × PyVal)) (acc : List (String × String)),
      loadClasificacion ((none, x) :: rs) acc = loadClasificacion rs acc) ∧
    (∀ (x : PyVal) (rs : List (PyVal × PyVal)) (acc : List (String × String)),
      loadClasificacion ((some "", x) :: rs) acc = loadClasificacion rs acc) := by
  refine ⟨?_, ?_, ?_, ?_, ?_, loadClasificacion_skip_none, loadClasificacion_skip_empty⟩
  · intro rows p hp
    have heq : loadSimple rows
        = (rows.map (fun q => (pyStr q.1, pyStrip (pyStr q.2)))).foldl
          (fun d kv => pyInsert d kv.1 kv.2) [] := by
      unfold loadSimple
      rw [List.foldl_map]
    rw [heq] at hp
    refine foldl_pyInsert_pred (fun v => pyStrip v = v) _ _ (by simp) ?_ p hp
    intro kv hkv
    rcases List.mem_map.mp hkv with ⟨q, _, hqe⟩
    rw [← hqe]
    exact pyStrip_idem _
  · intro rows p hp
    have heq : loadMunicipios rows
        = (rows.map (fun q => (pyStr q.1 ++ "-" ++ pyStr q.2.2, pyStrip (pyStr q.2.1)))).foldl
          (fun d kv => pyInsert d kv.1 kv.2) [] := by
      unfold loadMunicipios
      rw [List.foldl_map]
    rw [heq] at hp
    refine foldl_pyInsert_pred (fun v => pyStrip v = v) _ _ (by simp) ?_ p hp
    intro kv hkv
    rcases List.mem_map.mp hkv with ⟨q, _, hqe⟩
    rw [← hqe]
    exact pyStrip_idem _
  · intro rows d h p hp
    exact loadLab_values rows [] d h (by simp) p hp
  · intro rows d h p hp
    rcases loadClasificacion_mem rows [] d h p hp with hin | ⟨c0, c1, _, _, hpe⟩
    · simp at hin
    · rw [hpe]
      exact applyFixers_strip _
  · intro rows c0 c1 hmem
    have heq : loadSimple rows
        = (rows.map (fun q => (pyStr q.1, pyStrip (pyStr q.2)))).foldl
          (fun d kv => pyInsert d kv.1 kv.2) [] := by
      unfold loadSimple
      rw [List.foldl_map]
    rw [heq]
    refine foldl_pyInsert_keys _ [] (pyStr c0) (Or.inr ?_)
    exact ⟨(pyStr c0, pyStrip (pyStr c1)), List.mem_map.mpr ⟨(c0, c1), hmem, rfl⟩, rfl⟩

/-- C8 counterexample: a plain catalog sheet does not skip a row whose
code cell is `None` — the loader inserts an entry keyed `"None"` (with the
label trimmed), where the claim requires no entry at all. -/
theorem C8_counterexample :
    loadSimple [((none : PyVal), (some " X " : PyVal))] = [("None", "X")] := by decide

/-- C8 witness: the amended statement evaluated concretely on each loader. -/
theorem C8_witness :
    pyStrip (("1", "A") : String × String).2 = (("1", "A") : String × String).2 ∧
    pyStrip (("002-09", "AZCAPOTZALCO") : String × String).2
      = (("002-09", "AZCAPOTZALCO") : String × String).2 ∧
    pyStrip (("1", "POSITIVO") : String × String).2
      = (("1", "POSITIVO") : String × String).2 ∧
    pyStrip (("3", "México") : String × String).2 = (("3", "México") : String × String).2 ∧
    pyStr (none : PyVal) ∈ (loadSimple [((none : PyVal), (some " X " : PyVal))]).map Prod.fst ∧
    loadClasificacion [((none : PyVal), (some "L" : PyVal))] []
      = loadClasificacion [] [] := by
  have hc := C8_loader_trim_and_skip
  refine ⟨?_, ?_, ?_, ?_, ?_, hc.2.2.2.2.2.1 (some "L") [] []⟩
  · exact hc.1 [(some "1", some " A ")] ("1", "A") (by decide)
  · exact hc.2.1 [(some "002", some " AZCAPOTZALCO ", some "09")]
      ("002-09", "AZCAPOTZALCO") (by decide)
  · exact hc.2.2.1 [[some "1", some " POSITIVO "]] [("1", "POSITIVO")] (by decide)
      ("1", "POSITIVO") (by decide)
  · exact hc.2.2.2.1 [(some "3", some "MÃ©xico")] [("3", "México")] (by decide)
      ("3", "México") (by decide)
  · exact hc.2.2.2.2.1 [((none : PyVal), (some " X " : PyVal))] none (some " X ")
      (by decide)

/-! ## Claim C9 -/

theorem convertStates_none {cat : Catalogs} {r : CaseRecord}
    (h : dlookup r.ENTIDAD_UM cat.ENTIDADES = none) : convertStates cat r = none := by
  unfold convertStates
  rw [h]
  rfl

theorem convertRow_none_of_states {cat : Catalogs} {r : CaseRecord}
    (h : convertStates cat r = none) : convertRow cat r = none := by
  unfold convertRow
  rw [h]
  rfl

/-- C9 (amended): catalog resolution is not idempotent.  Precisely because
labels and codes occupy disjoint value spaces, running `convertRow` again
on an already-resolved record fails its very first hard lookup (the label
is not a catalog code) and aborts with a `KeyError` instead of being a
no-op. -/
theorem C9_second_resolution_aborts (cat : Catalogs) (r out : CaseRecord)
    (h : convertRow cat r = some out)
    (hdisj : ∀ p ∈ cat.ENTIDADES, dlookup p.2 cat.ENTIDADES = none) :
    convertRow cat out = none := by
  obtain ⟨h1, _, _, _, _, _, _, _, _, _, _, _, _, _, _, _, _, _, _, _, _, _, _, _, _,
    _, _, _, _, _, _, _, _, _⟩ := convertRow_char h
  exact convertRow_none_of_states (convertStates_none (hdisj _ (dlookup_mem h1)))

/-- C9 counterexample: resolving an already-resolved record is not a
no-op — the second application of `convertRow` returns `none` (a
`KeyError`), not the unchanged record. -/
theorem C9_counterexample :
    convertRow sampleCatalogs sampleRecord = some sampleOut ∧
    convertRow sampleCatalogs sampleOut = none ∧
    ¬ convertRow sampleCatalogs sampleOut = some sampleOut := by decide

/-- C9 witness: the amended statement evaluated on the sample fixtures,
whose labels indeed never coincide with codes. -/
theorem C9_witness :
    convertRow sampleCatalogs sampleRecord = some sampleOut ∧
    (∀ p ∈ sampleCatalogs.ENTIDADES, dlookup p.2 sampleCatalogs.ENTIDADES = none) ∧
    convertRow sampleCatalogs sampleOut = none :=
  ⟨by decide, by decide,
    C9_second_resolution_aborts sampleCatalogs sampleRecord sampleOut (by decide) (by decide)⟩

/-! ## Claim C10 -/

/-- C10: the skeleton key is the ISO date and the region joined by an
underscore.  For a region without an underscore, the writer split
recovers exactly the original (date, region) pair and emits the
corresponding row; a region containing an underscore makes the split
produce more than two parts, and the whole output-writing step fails
instead of emitting anything. -/
theorem C10_key_roundtrip :
    (∀ (f d c : String), toIso f = some d → '_' ∉ c.data →
      splitKey (mkKey d c) = some (d, c) ∧
      ∀ e : Entry, writeOutput [(mkKey d c, e)]
        = some [OutRow.mk d c e.confirmed e.deaths e.recovered]) ∧
    (∀ (f d c : String), toIso f = some d → '_' ∈ c.data →
      2 < (splitChar '_' (mkKey d c).data).length ∧
      ∀ dd : List (String × Entry), mkKey d c ∈ dd.map Prod.fst → writeOutput dd = none) := by
  constructor
  · intro f d c hf hc
    have hsplit := splitKey_mkKey (toIso_shape hf).2 hc
    refine ⟨hsplit, fun e => ?_⟩
    unfold writeOutput mapOpt
    rw [hsplit]
    rfl
  · intro f d c hf hc
    have h := splitKey_us (toIso_shape hf).2 hc
    exact ⟨h.1, fun dd hdd => writeOutput_none hdd h.2⟩

/-- C10 witness: a region with a comma round-trips; a region with an
underscore kills the writer. -/
theorem C10_witness :
    (splitKey (mkKey "2020-01-22" "Korea, South") = some ("2020-01-22", "Korea, South") ∧
      ∀ e : Entry, writeOutput [(mkKey "2020-01-22" "Korea, South", e)]
        = some [OutRow.mk "2020-01-22" "Korea, South" e.confirmed e.deaths e.recovered]) ∧
    (2 < (splitChar '_' (mkKey "2020-01-22" "A_B").data).length ∧
      ∀ dd : List (String × Entry), mkKey "2020-01-22" "A_B" ∈ dd.map Prod.fst →
        writeOutput dd = none) :=
  ⟨C10_key_roundtrip.1 "1/22/20" "2020-01-22" "Korea, South" (by decide) (by decide),
    C10_key_roundtrip.2 "1/22/20" "2020-01-22" "A_B" (by decide) (by decide)⟩

end Covid
